import Mathlib

/-!
The request handlers and the response formatter of golang-crud-operations.

A shallow embedding of `internal/http/handlers/student/student.go` and
`internal/utils/response/response.go`, together with models of the library
routines those two files call (`strconv.Atoi`, the `encoding/json` stream
decoder, the struct validator) and of the declarations of the repository they
use (`types.Student`, `storage.Storage`).

Conventions.
* Go strings and request bodies are taken as text: a body is a `String`, so the
  requests considered are those whose body is well-formed UTF-8.
* Go `int` is the 64-bit signed integer.
* A Go `error` is observed through its message only.
* Every call a handler makes on the storage interface is recorded in a trace,
  every `slog.Info` call in a log; both are part of the handler's result.
-/

namespace GoCrud

/-! ## Go values -/

/-- A Go `error` value, observed through `Error()`. -/
structure GoError where
  msg : String
deriving DecidableEq, Repr

/-- A Go slice value: the nil slice, or a slice holding the listed elements
(possibly none).  `encoding/json` tells the two apart. -/
inductive Slice (α : Type) where
  | nil : Slice α
  | elems : List α → Slice α
deriving DecidableEq, Repr

/-- The `len` of a slice. -/
def Slice.len {α : Type} : Slice α → Nat
  | .nil => 0
  | .elems xs => xs.length

/-- The elements of a slice in order. -/
def Slice.toList {α : Type} : Slice α → List α
  | .nil => []
  | .elems xs => xs

/-- A JSON document as written by `json.Encoder`, up to the spelling of string
literals and the trailing newline. -/
inductive JVal where
  | null : JVal
  | int : Int → JVal
  | str : String → JVal
  | arr : List JVal → JVal
  | obj : List (String × JVal) → JVal
deriving Repr

/-! ## strconv -/

/-- The two sentinel errors of `strconv`. -/
inductive NumErr where
  | ErrSyntax
  | ErrRange
deriving DecidableEq, Repr

/-- Go `*strconv.NumError`. -/
structure NumError where
  Func : String
  Num : String
  Err : NumErr
deriving DecidableEq, Repr

/-- The text of a `strconv` sentinel error. -/
def NumErr.text : NumErr → String
  | .ErrSyntax => "invalid syntax"
  | .ErrRange => "value out of range"

/-- The width of Go `int` and `uint`. -/
def IntSize : Nat := 64

/-- The digit loop of `strconv.ParseUint(s, 10, 64)`: `n` is the value so far.
A byte that is not a decimal digit is a syntax error at the moment it is met;
an overflow is a range error at the moment it happens. -/
def parseUintLoop : List Char → Nat → Except NumErr Nat
  | [], n => .ok n
  | c :: cs, n =>
    if c.isDigit then
      let d := c.toNat - 48
      -- cutoff: the smallest number such that cutoff*10 > maxUint64
      if n ≥ (2 ^ 64 - 1) / 10 + 1 then .error .ErrRange
      else if n * 10 + d > 2 ^ 64 - 1 then .error .ErrRange
      else parseUintLoop cs (n * 10 + d)
    else .error .ErrSyntax

/-- Go `strconv.ParseUint(s, 10, 64)`, without the error wrapper. -/
def ParseUint (s : List Char) : Except NumErr Nat :=
  match s with
  | [] => .error .ErrSyntax
  | _ => parseUintLoop s 0

/-- Go `strconv.ParseInt(s, 10, 64)`, without the error wrapper: an optional
sign, then `ParseUint`, then the range check of the signed type. -/
def ParseInt (s : List Char) : Except NumErr Int :=
  match s with
  | [] => .error .ErrSyntax
  | c :: cs =>
    let neg := c == '-'
    let digits := if c == '+' || c == '-' then cs else s
    match ParseUint digits with
    | .error .ErrSyntax => .error .ErrSyntax
    | .error .ErrRange => .error .ErrRange
    | .ok un =>
      let cutoff := 2 ^ (IntSize - 1)
      if !neg && un ≥ cutoff then .error .ErrRange
      else if neg && un > cutoff then .error .ErrRange
      else .ok (if neg then - (un : Int) else (un : Int))

/-- Go `strconv.Atoi`: the fast path for short inputs computes the same value
as `ParseInt(s, 10, 0)`, and every error is a `NumError` of function `Atoi`
quoting the input. -/
def Atoi (s : String) : Except NumError Int :=
  match ParseInt s.toList with
  | .ok n => .ok n
  | .error e => .error ⟨"Atoi", s, e⟩

/-! ## encoding/json: the scanner (scanner.go)

The scanner is a state machine fed one byte at a time.  `Step` names the step
function currently installed, `Op` is the opcode a step returns. -/

/-- The opcodes returned by the step functions. -/
inductive Op where
  | scanContinue
  | scanBeginLiteral
  | scanBeginObject
  | scanObjectKey
  | scanObjectValue
  | scanEndObject
  | scanBeginArray
  | scanArrayValue
  | scanEndArray
  | scanSkipSpace
  | scanEnd
  | scanError
deriving DecidableEq, Repr

/-- The entries of the scanner's parse stack. -/
inductive ParseState where
  | parseObjectKey
  | parseObjectValue
  | parseArrayValue
deriving DecidableEq, Repr

/-- The step functions of the scanner. -/
inductive Step where
  | stateBeginValueOrEmpty
  | stateBeginValue
  | stateBeginStringOrEmpty
  | stateBeginString
  | stateEndValue
  | stateEndTop
  | stateInString
  | stateInStringEsc
  | stateInStringEscU
  | stateInStringEscU1
  | stateInStringEscU12
  | stateInStringEscU123
  | stateNeg
  | state1
  | state0
  | stateDot
  | stateDot0
  | stateE
  | stateESign
  | stateE0
  | stateT
  | stateTr
  | stateTru
  | stateF
  | stateFa
  | stateFal
  | stateFals
  | stateN
  | stateNu
  | stateNul
  | stateError
deriving DecidableEq, Repr

/-- Go `*json.SyntaxError` as the scanner builds it: the offending byte and
the context string ("invalid character c context"). -/
structure SyntaxError where
  c : Char
  context : String
deriving DecidableEq, Repr

/-- Go `json.scanner`.  The parse stack is kept with its top at the head of
the list. -/
structure Scanner where
  step : Step
  endTop : Bool
  parseState : List ParseState
  err : Option SyntaxError
deriving DecidableEq, Repr

/-- The nesting limit of the scanner. -/
def maxNestingDepth : Nat := 10000

/-- Go `scanner.reset`. -/
def Scanner.reset : Scanner :=
  { step := .stateBeginValue, endTop := false, parseState := [], err := none }

/-- Go `scanner.error`: record the error and kill the scanner. -/
def Scanner.error (s : Scanner) (c : Char) (context : String) : Scanner × Op :=
  ({ s with step := .stateError, err := some ⟨c, context⟩ }, .scanError)

/-- Go `scanner.pushParseState`. -/
def Scanner.pushParseState (s : Scanner) (c : Char) (newParseState : ParseState)
    (successState : Op) : Scanner × Op :=
  let s1 := { s with parseState := newParseState :: s.parseState }
  if s1.parseState.length ≤ maxNestingDepth then (s1, successState)
  else s1.error c "exceeded max depth"

/-- Go `scanner.popParseState`. -/
def Scanner.popParseState (s : Scanner) : Scanner :=
  let rest := s.parseState.tail
  if rest.length = 0 then { s with parseState := rest, step := .stateEndTop, endTop := true }
  else { s with parseState := rest, step := .stateEndValue }

/-- Overwrite the top entry of the parse stack. -/
def Scanner.setTop (s : Scanner) (p : ParseState) : Scanner :=
  { s with parseState := p :: s.parseState.tail }

/-- Go `isSpace`. -/
def isSpace (c : Char) : Bool :=
  c == ' ' || c == '\t' || c == '\r' || c == '\n'

/-- A hexadecimal digit, as tested by the `\u` escape states. -/
def isHex (c : Char) : Bool :=
  ('0' ≤ c && c ≤ '9') || ('a' ≤ c && c ≤ 'f') || ('A' ≤ c && c ≤ 'F')

/-- The double quote. -/
def dquote : Char := Char.ofNat 34

/-- The backslash. -/
def bslash : Char := Char.ofNat 92

/-- Go `stateEndTop`: after the top-level value only space may follow; another
byte is recorded as an error for the next call, and the opcode is `scanEnd`
either way. -/
def stateEndTop (s : Scanner) (c : Char) : Scanner × Op :=
  if !isSpace c then ((s.error c "after top-level value").1, .scanEnd)
  else (s, .scanEnd)

/-- Go `stateEndValue`: the state after a complete value. -/
def stateEndValue (s : Scanner) (c : Char) : Scanner × Op :=
  match s.parseState with
  | [] => stateEndTop { s with step := .stateEndTop, endTop := true } c
  | ps :: _ =>
    if isSpace c then ({ s with step := .stateEndValue }, .scanSkipSpace)
    else match ps with
      | .parseObjectKey =>
        if c == ':' then
          ({ s.setTop .parseObjectValue with step := .stateBeginValue }, .scanObjectKey)
        else s.error c "after object key"
      | .parseObjectValue =>
        if c == ',' then
          ({ s.setTop .parseObjectKey with step := .stateBeginString }, .scanObjectValue)
        else if c == '}' then (s.popParseState, .scanEndObject)
        else s.error c "after object key:value pair"
      | .parseArrayValue =>
        if c == ',' then ({ s with step := .stateBeginValue }, .scanArrayValue)
        else if c == ']' then (s.popParseState, .scanEndArray)
        else s.error c "after array element"

/-- Go `stateBeginValue`: the state at the beginning of the input or of a
value. -/
def stateBeginValue (s : Scanner) (c : Char) : Scanner × Op :=
  if isSpace c then (s, .scanSkipSpace)
  else if c == '{' then
    Scanner.pushParseState { s with step := .stateBeginStringOrEmpty } c .parseObjectKey
      .scanBeginObject
  else if c == '[' then
    Scanner.pushParseState { s with step := .stateBeginValueOrEmpty } c .parseArrayValue
      .scanBeginArray
  else if c == dquote then ({ s with step := .stateInString }, .scanBeginLiteral)
  else if c == '-' then ({ s with step := .stateNeg }, .scanBeginLiteral)
  else if c == '0' then ({ s with step := .state0 }, .scanBeginLiteral)
  else if c == 't' then ({ s with step := .stateT }, .scanBeginLiteral)
  else if c == 'f' then ({ s with step := .stateF }, .scanBeginLiteral)
  else if c == 'n' then ({ s with step := .stateN }, .scanBeginLiteral)
  else if '1' ≤ c && c ≤ '9' then ({ s with step := .state1 }, .scanBeginLiteral)
  else s.error c "looking for beginning of value"

/-- Go `stateBeginValueOrEmpty`: the state after reading an opening bracket. -/
def stateBeginValueOrEmpty (s : Scanner) (c : Char) : Scanner × Op :=
  if isSpace c then (s, .scanSkipSpace)
  else if c == ']' then stateEndValue s c
  else stateBeginValue s c

/-- Go `stateBeginString`: the state after reading an opening brace and a
comma. -/
def stateBeginString (s : Scanner) (c : Char) : Scanner × Op :=
  if isSpace c then (s, .scanSkipSpace)
  else if c == dquote then ({ s with step := .stateInString }, .scanBeginLiteral)
  else s.error c "looking for beginning of object key string"

/-- Go `stateBeginStringOrEmpty`: the state after reading an opening brace. -/
def stateBeginStringOrEmpty (s : Scanner) (c : Char) : Scanner × Op :=
  if isSpace c then (s, .scanSkipSpace)
  else if c == '}' then stateEndValue (s.setTop .parseObjectValue) c
  else stateBeginString s c

/-- Go `stateInString`. -/
def stateInString (s : Scanner) (c : Char) : Scanner × Op :=
  if c == dquote then ({ s with step := .stateEndValue }, .scanContinue)
  else if c == bslash then ({ s with step := .stateInStringEsc }, .scanContinue)
  else if c.toNat < 0x20 then s.error c "in string literal"
  else (s, .scanContinue)

/-- Go `stateInStringEsc`: the state after a backslash in a string. -/
def stateInStringEsc (s : Scanner) (c : Char) : Scanner × Op :=
  if c == 'b' || c == 'f' || c == 'n' || c == 'r' || c == 't' || c == bslash || c == '/'
      || c == dquote then
    ({ s with step := .stateInString }, .scanContinue)
  else if c == 'u' then ({ s with step := .stateInStringEscU }, .scanContinue)
  else s.error c "in string escape code"

/-- Go `stateInStringEscU` and its three successors: one hexadecimal digit
each, `next` being the state after it. -/
def stateInStringEscHex (next : Step) (s : Scanner) (c : Char) : Scanner × Op :=
  if isHex c then ({ s with step := next }, .scanContinue)
  else s.error c "in \\u hexadecimal character escape"

/-- Go `state0`: after a leading zero, or any complete integer part. -/
def state0 (s : Scanner) (c : Char) : Scanner × Op :=
  if c == '.' then ({ s with step := .stateDot }, .scanContinue)
  else if c == 'e' || c == 'E' then ({ s with step := .stateE }, .scanContinue)
  else stateEndValue s c

/-- Go `state1`: after a non-zero digit of the integer part. -/
def state1 (s : Scanner) (c : Char) : Scanner × Op :=
  if '0' ≤ c && c ≤ '9' then ({ s with step := .state1 }, .scanContinue)
  else state0 s c

/-- Go `stateNeg`: after the minus sign. -/
def stateNeg (s : Scanner) (c : Char) : Scanner × Op :=
  if c == '0' then ({ s with step := .state0 }, .scanContinue)
  else if '1' ≤ c && c ≤ '9' then ({ s with step := .state1 }, .scanContinue)
  else s.error c "in numeric literal"

/-- Go `stateDot`: after the decimal point. -/
def stateDot (s : Scanner) (c : Char) : Scanner × Op :=
  if '0' ≤ c && c ≤ '9' then ({ s with step := .stateDot0 }, .scanContinue)
  else s.error c "after decimal point in numeric literal"

/-- Go `stateDot0`: after a digit of the fraction. -/
def stateDot0 (s : Scanner) (c : Char) : Scanner × Op :=
  if '0' ≤ c && c ≤ '9' then (s, .scanContinue)
  else if c == 'e' || c == 'E' then ({ s with step := .stateE }, .scanContinue)
  else stateEndValue s c

/-- Go `stateESign`: after the exponent mark and its optional sign. -/
def stateESign (s : Scanner) (c : Char) : Scanner × Op :=
  if '0' ≤ c && c ≤ '9' then ({ s with step := .stateE0 }, .scanContinue)
  else s.error c "in exponent of numeric literal"

/-- Go `stateE`: after the exponent mark. -/
def stateE (s : Scanner) (c : Char) : Scanner × Op :=
  if c == '+' || c == '-' then ({ s with step := .stateESign }, .scanContinue)
  else stateESign s c

/-- Go `stateE0`: after a digit of the exponent. -/
def stateE0 (s : Scanner) (c : Char) : Scanner × Op :=
  if '0' ≤ c && c ≤ '9' then (s, .scanContinue)
  else stateEndValue s c

/-- The states inside the literals `true`, `false` and `null`: the next byte
must be `want`; `next` is the state after it. -/
def stateWord (want : Char) (next : Step) (context : String) (s : Scanner) (c : Char) :
    Scanner × Op :=
  if c == want then ({ s with step := next }, .scanContinue)
  else s.error c context

/-- The call `s.step(s, c)`: run the installed step function on one byte. -/
def Scanner.doStep (s : Scanner) (c : Char) : Scanner × Op :=
  match s.step with
  | .stateBeginValueOrEmpty => stateBeginValueOrEmpty s c
  | .stateBeginValue => stateBeginValue s c
  | .stateBeginStringOrEmpty => stateBeginStringOrEmpty s c
  | .stateBeginString => stateBeginString s c
  | .stateEndValue => stateEndValue s c
  | .stateEndTop => stateEndTop s c
  | .stateInString => stateInString s c
  | .stateInStringEsc => stateInStringEsc s c
  | .stateInStringEscU => stateInStringEscHex .stateInStringEscU1 s c
  | .stateInStringEscU1 => stateInStringEscHex .stateInStringEscU12 s c
  | .stateInStringEscU12 => stateInStringEscHex .stateInStringEscU123 s c
  | .stateInStringEscU123 => stateInStringEscHex .stateInString s c
  | .stateNeg => stateNeg s c
  | .state1 => state1 s c
  | .state0 => state0 s c
  | .stateDot => stateDot s c
  | .stateDot0 => stateDot0 s c
  | .stateE => stateE s c
  | .stateESign => stateESign s c
  | .stateE0 => stateE0 s c
  | .stateT => stateWord 'r' .stateTr "in literal true (expecting \x27r\x27)" s c
  | .stateTr => stateWord 'u' .stateTru "in literal true (expecting \x27u\x27)" s c
  | .stateTru => stateWord 'e' .stateEndValue "in literal true (expecting \x27e\x27)" s c
  | .stateF => stateWord 'a' .stateFa "in literal false (expecting \x27a\x27)" s c
  | .stateFa => stateWord 'l' .stateFal "in literal false (expecting \x27l\x27)" s c
  | .stateFal => stateWord 's' .stateFals "in literal false (expecting \x27s\x27)" s c
  | .stateFals => stateWord 'e' .stateEndValue "in literal false (expecting \x27e\x27)" s c
  | .stateN => stateWord 'u' .stateNu "in literal null (expecting \x27u\x27)" s c
  | .stateNu => stateWord 'l' .stateNul "in literal null (expecting \x27l\x27)" s c
  | .stateNul => stateWord 'l' .stateEndValue "in literal null (expecting \x27l\x27)" s c
  | .stateError => (s, .scanError)

/-! ## encoding/json: the stream decoder (stream.go) -/

/-- The outcome of `Decoder.readValue` on a fresh decoder: the length of the
first JSON value in the input (leading space included), or the error. -/
inductive ReadValue where
  | value (n : Nat)
  | EOF
  | ErrUnexpectedEOF
  | syntaxError (e : SyntaxError)
deriving DecidableEq, Repr

/-- Go `nonSpace`: does the buffer hold a byte that is not space. -/
def nonSpace (b : List Char) : Bool :=
  b.any (fun c => !isSpace c)

/-- The scanning loop of `Decoder.readValue`.  `buf` is everything read from the
body, `scanp` the number of bytes scanned so far, the list the bytes still to
scan.  When the bytes run out the reader reports `io.EOF`, and the scanner is
asked whether the value is complete. -/
def readValueLoop (buf : List Char) : Scanner → Nat → List Char → ReadValue
  | s, scanp, [] =>
    if (s.doStep ' ').2 = .scanEnd then .value scanp
    else if nonSpace buf then .ErrUnexpectedEOF
    else .EOF
  | s, scanp, c :: cs =>
    match s.doStep c with
    | (_, .scanEnd) => .value scanp
    | (s1, .scanEndObject) =>
      -- scanEnd is delayed one byte: invent a space byte
      match stateEndValue s1 ' ' with
      | (_, .scanEnd) => .value (scanp + 1)
      | (s2, _) => readValueLoop buf s2 (scanp + 1) cs
    | (s1, .scanEndArray) =>
      match stateEndValue s1 ' ' with
      | (_, .scanEnd) => .value (scanp + 1)
      | (s2, _) => readValueLoop buf s2 (scanp + 1) cs
    | (s1, .scanError) =>
      match s1.err with
      | some e => .syntaxError e
      | none => .syntaxError ⟨c, ""⟩
    | (s1, _) => readValueLoop buf s1 (scanp + 1) cs

/-- Go `Decoder.readValue` on a decoder that has read nothing yet. -/
def readValue (body : List Char) : ReadValue :=
  readValueLoop body Scanner.reset 0 body

/-! ## types.Student -/

/-- Modelled from the spec: the declaration of `types.Student` (package
`internal/types`, which the handlers import).  The handlers read the fields
`Name`, `Email` and `Age`; the spec gives the record an integer `id` besides
and maps the fields to the JSON keys `id`, `name`, `email`, `age`. -/
structure Student where
  Id : Int
  Name : String
  Email : String
  Age : Int
deriving DecidableEq, Repr

/-- The zero value of `types.Student`, the value of `var student types.Student`. -/
def Student.zero : Student :=
  { Id := 0, Name := "", Email := "", Age := 0 }

/-- The fields of `types.Student`. -/
inductive Field where
  | Id
  | Name
  | Email
  | Age
deriving DecidableEq, Repr

/-- Modelled from the spec: the JSON key of a field of `types.Student` ("field
names map to lowercase JSON keys `id`, `name`, `email`, `age`"). -/
def Field.jsonName : Field → String
  | .Id => "id"
  | .Name => "name"
  | .Email => "email"
  | .Age => "age"

/-- The Go name of a field of `types.Student`. -/
def Field.goName : Field → String
  | .Id => "Id"
  | .Name => "Name"
  | .Email => "Email"
  | .Age => "Age"

/-- The fields of `types.Student` in declaration order. -/
def Field.all : List Field := [.Id, .Name, .Email, .Age]

/-! ## encoding/json: decoding a value into a Student (decode.go) -/

/-- Go `*json.UnmarshalTypeError`: the JSON value met, and the struct and field
it was meant for (both empty at top level).  The Go type and the offset are
left out. -/
structure UnmarshalTypeError where
  Value : String
  Struct : String
  Field : String
deriving DecidableEq, Repr

/-- The pieces of a JSON value, as the scanner's opcodes cut it. -/
inductive Token where
  | literal (item : List Char)
  | beginObject
  | objectKey
  | objectValue
  | endObject
  | beginArray
  | arrayValue
  | endArray
deriving DecidableEq, Repr

/-- Close the literal being collected, if any. -/
def flushLiteral : Option (List Char) → List Token
  | none => []
  | some item => [.literal item]

/-- Cut a JSON value into tokens by running the scanner over it: a literal is
its first byte (`scanBeginLiteral`) and the bytes that follow with opcode
`scanContinue`; space is dropped. -/
def tokensLoop : Scanner → Option (List Char) → List Char → List Token
  | _, lit, [] => flushLiteral lit
  | s, lit, c :: cs =>
    match s.doStep c with
    | (s1, .scanContinue) => tokensLoop s1 (lit.map (fun item => item ++ [c])) cs
    | (s1, .scanBeginLiteral) => flushLiteral lit ++ tokensLoop s1 (some [c]) cs
    | (s1, .scanBeginObject) => flushLiteral lit ++ .beginObject :: tokensLoop s1 none cs
    | (s1, .scanObjectKey) => flushLiteral lit ++ .objectKey :: tokensLoop s1 none cs
    | (s1, .scanObjectValue) => flushLiteral lit ++ .objectValue :: tokensLoop s1 none cs
    | (s1, .scanEndObject) => flushLiteral lit ++ .endObject :: tokensLoop s1 none cs
    | (s1, .scanBeginArray) => flushLiteral lit ++ .beginArray :: tokensLoop s1 none cs
    | (s1, .scanArrayValue) => flushLiteral lit ++ .arrayValue :: tokensLoop s1 none cs
    | (s1, .scanEndArray) => flushLiteral lit ++ .endArray :: tokensLoop s1 none cs
    | (s1, .scanSkipSpace) => flushLiteral lit ++ tokensLoop s1 none cs
    | (_, .scanEnd) => flushLiteral lit
    | (_, .scanError) => flushLiteral lit

/-- The tokens of a JSON value. -/
def tokens (data : List Char) : List Token :=
  tokensLoop Scanner.reset none data

/-- The value of one hexadecimal digit. -/
def hexVal (c : Char) : Nat :=
  if '0' ≤ c && c ≤ '9' then c.toNat - 48
  else if 'a' ≤ c && c ≤ 'f' then c.toNat - 97 + 10
  else if 'A' ≤ c && c ≤ 'F' then c.toNat - 65 + 10
  else 0

/-- Go `getu4` on four hexadecimal digits. -/
def hex4 (a b c d : Char) : Nat :=
  ((hexVal a * 16 + hexVal b) * 16 + hexVal c) * 16 + hexVal d

/-- Go `unicode.ReplacementChar`. -/
def replacementChar : Char := Char.ofNat 0xFFFD

/-- The character a one-letter escape stands for. -/
def escapeChar (e : Char) : Char :=
  if e == 'b' then Char.ofNat 8
  else if e == 'f' then Char.ofNat 12
  else if e == 'n' then Char.ofNat 10
  else if e == 'r' then Char.ofNat 13
  else if e == 't' then Char.ofNat 9
  else e

/-- The low surrogate escape `\uXXXX` at the head of the input, if there is
one: the second half of a surrogate pair. -/
def lowSurrogate : List Char → Option Nat
  | b1 :: u1 :: l1 :: l2 :: l3 :: l4 :: _ =>
    let rr1 := hex4 l1 l2 l3 l4
    if b1 == bslash && u1 == 'u' && isHex l1 && isHex l2 && isHex l3 && isHex l4
        && 0xDC00 ≤ rr1 && rr1 < 0xE000 then some rr1
    else none
  | _ => none

/-- The loop of Go `unquoteBytes` on the inside of a string literal the scanner
has accepted: escapes are replaced by the characters they stand for, a `\u`
escape of a high surrogate is joined with a low surrogate escape that follows
it, and a surrogate without its partner becomes the replacement character.
The first argument is the number of characters still to pass over, those of
an escape already decoded. -/
def unquoteLoop : Nat → List Char → List Char
  | _, [] => []
  | skip + 1, _ :: cs => unquoteLoop skip cs
  | 0, c :: cs =>
    if c == bslash then
      match cs with
      | [] => []
      | e :: cs1 =>
        if e == 'u' then
          match cs1 with
          | h1 :: h2 :: h3 :: h4 :: rest =>
            let rr := hex4 h1 h2 h3 h4
            if 0xD800 ≤ rr && rr < 0xE000 then
              match (if rr < 0xDC00 then lowSurrogate rest else none) with
              | some rr1 =>
                Char.ofNat ((rr - 0xD800) * 0x400 + (rr1 - 0xDC00) + 0x10000)
                  :: unquoteLoop 11 cs
              | none => replacementChar :: unquoteLoop 5 cs
            else Char.ofNat rr :: unquoteLoop 5 cs
          | _ => []
        else escapeChar e :: unquoteLoop 1 cs
    else c :: unquoteLoop 0 cs

/-- Go `unquote` on a string literal, quotes included. -/
def unquote (item : List Char) : String :=
  String.mk (unquoteLoop 0 item.tail.dropLast)

/-- Go `foldName` on one character: ASCII letters go to upper case, and the two
characters outside ASCII whose case orbit holds an ASCII letter go to that
letter.  Other characters outside ASCII are left as they are (their folded
form is outside ASCII as well). -/
def foldChar (c : Char) : Char :=
  if 'a' ≤ c && c ≤ 'z' then Char.ofNat (c.toNat - 32)
  else if c == Char.ofNat 0x17F then 'S'
  else if c == Char.ofNat 0x212A then 'K'
  else c

/-- Go `foldName`. -/
def foldName (s : String) : String :=
  String.mk (s.toList.map foldChar)

/-- The field an object key is decoded into: the field of that exact JSON name,
or else the field whose folded name is the folded key (`byExactName`, then
`byFoldedName`). -/
def lookupField (key : String) : Option Field :=
  match Field.all.find? (fun f => f.jsonName == key) with
  | some f => some f
  | none => Field.all.find? (fun f => foldName f.jsonName == foldName key)

/-- Go `decodeState`: the value being filled and the first error saved. -/
structure DecodeState where
  student : Student
  savedError : Option UnmarshalTypeError
deriving DecidableEq, Repr

/-- Go `decodeState.saveError`: only the first error is kept. -/
def DecodeState.saveError (d : DecodeState) (e : UnmarshalTypeError) : DecodeState :=
  match d.savedError with
  | none => { d with savedError := some e }
  | some _ => d

/-- The error for a JSON value that does not fit a field of `Student`. -/
def fieldTypeError (f : Field) (value : String) : UnmarshalTypeError :=
  { Value := value, Struct := "Student", Field := f.jsonName }

/-- Store an integer into an integer field. -/
def setInt (st : Student) (f : Field) (n : Int) : Student :=
  match f with
  | .Id => { st with Id := n }
  | .Age => { st with Age := n }
  | _ => st

/-- Store a string into a string field. -/
def setString (st : Student) (f : Field) (v : String) : Student :=
  match f with
  | .Name => { st with Name := v }
  | .Email => { st with Email := v }
  | _ => st

/-- Is the field of a string type. -/
def Field.isString : Field → Bool
  | .Name => true
  | .Email => true
  | _ => false

/-- Go `decodeState.literalStore` for a field of `Student`: `null` leaves the
field alone, a string goes into a string field, a number that `ParseInt`
accepts goes into an integer field, everything else is a type error. -/
def literalStore (d : DecodeState) (f : Field) (item : List Char) : DecodeState :=
  match item with
  | [] => d
  | c :: _ =>
    if c == 'n' then d
    else if c == 't' || c == 'f' then d.saveError (fieldTypeError f "bool")
    else if c == dquote then
      if f.isString then { d with student := setString d.student f (unquote item) }
      else d.saveError (fieldTypeError f "string")
    else
      if f.isString then d.saveError (fieldTypeError f "number")
      else match ParseInt item with
        | .ok n => { d with student := setInt d.student f n }
        | .error _ => d.saveError (fieldTypeError f ("number " ++ String.mk item))

/-- Where `decodeState.object` stands inside the top-level object: `depth` is
the number of containers open below the object (a nested value being skipped),
`inValue` tells a value from a key, `field` is the field of the current key. -/
structure ObjectState where
  d : DecodeState
  depth : Nat
  inValue : Bool
  field : Option Field
  done : Bool
deriving DecidableEq, Repr

/-- One token of the top-level object, as `decodeState.object` treats it:
a key selects a field (none for an unknown key, whose value is skipped), a
literal value is stored, an object or array value is a type error and is
skipped. -/
def objectStep (o : ObjectState) (t : Token) : ObjectState :=
  if o.done then o
  else if o.depth > 0 then
    match t with
    | .beginObject => { o with depth := o.depth + 1 }
    | .beginArray => { o with depth := o.depth + 1 }
    | .endObject => { o with depth := o.depth - 1 }
    | .endArray => { o with depth := o.depth - 1 }
    | _ => o
  else
    match t with
    | .literal item =>
      if o.inValue then
        match o.field with
        | some f => { o with d := literalStore o.d f item }
        | none => o
      else { o with field := lookupField (unquote item) }
    | .objectKey => { o with inValue := true }
    | .objectValue => { o with inValue := false, field := none }
    | .beginObject =>
      match o.field with
      | some f => { o with d := o.d.saveError (fieldTypeError f "object"), depth := 1 }
      | none => { o with depth := 1 }
    | .beginArray =>
      match o.field with
      | some f => { o with d := o.d.saveError (fieldTypeError f "array"), depth := 1 }
      | none => { o with depth := 1 }
    | .endObject => { o with done := true }
    | _ => o

/-- The error for a top-level JSON value that is not an object. -/
def topTypeError (value : String) : UnmarshalTypeError :=
  { Value := value, Struct := "", Field := "" }

/-- Go `decodeState.unmarshal` into `*types.Student`: an object is decoded key
by key, `null` changes nothing, any other value is a type error.  The result
is the value and the saved error. -/
def unmarshal (data : List Char) (student : Student) : DecodeState :=
  let d : DecodeState := { student := student, savedError := none }
  match tokens data with
  | [] => d
  | .beginObject :: ts =>
    (ts.foldl objectStep
      { d := d, depth := 0, inValue := false, field := none, done := false }).d
  | .beginArray :: _ => d.saveError (topTypeError "array")
  | .literal item :: _ =>
    match item with
    | [] => d
    | c :: _ =>
      if c == 'n' then d
      else if c == 't' || c == 'f' then d.saveError (topTypeError "bool")
      else if c == dquote then d.saveError (topTypeError "string")
      else d.saveError (topTypeError "number")
  | _ :: _ => d

/-- The errors `Decoder.Decode` returns. -/
inductive DecodeError where
  | EOF
  | ErrUnexpectedEOF
  | syntaxError (e : SyntaxError)
  | unmarshalTypeError (e : UnmarshalTypeError)
deriving DecidableEq, Repr

/-- Go `json.NewDecoder(r.Body).Decode(&student)`: read the first JSON value of
the body, then unmarshal it.  What follows the first value is not looked at
(beyond the one byte that ends a number or a word).  The result is the
student after the call and the error returned (`none` for nil). -/
def Decode (body : String) (student : Student) : Student × Option DecodeError :=
  match readValue body.toList with
  | .EOF => (student, some .EOF)
  | .ErrUnexpectedEOF => (student, some .ErrUnexpectedEOF)
  | .syntaxError e => (student, some (.syntaxError e))
  | .value n =>
    let d := unmarshal (body.toList.take n) student
    (d.student, d.savedError.map .unmarshalTypeError)

/-! ## Library texts left open

The spelling of some library messages and the email test of the validator are
not modelled; the handlers are parametric in them. -/

/-- The library routines the model leaves open. -/
structure Lib where
  /-- The `email` check of the validator. -/
  isEmail : String → Bool
  /-- Go `strconv.Quote`. -/
  quote : String → String
  /-- Go `quoteChar` of `encoding/json`. -/
  quoteChar : Char → String
  /-- `Error()` of a `*json.UnmarshalTypeError`. -/
  typeErrorText : UnmarshalTypeError → String

/-- `Error()` of a `*strconv.NumError`. -/
def NumError.Error (lib : Lib) (e : NumError) : String :=
  "strconv." ++ e.Func ++ ": parsing " ++ lib.quote e.Num ++ ": " ++ e.Err.text

/-- `Error()` of a `*json.SyntaxError` built by the scanner. -/
def SyntaxError.Error (lib : Lib) (e : SyntaxError) : String :=
  "invalid character " ++ lib.quoteChar e.c ++ " " ++ e.context

/-- `Error()` of the errors `Decoder.Decode` returns. -/
def DecodeError.Error (lib : Lib) : DecodeError → String
  | .EOF => "EOF"
  | .ErrUnexpectedEOF => "unexpected EOF"
  | .syntaxError e => e.Error lib
  | .unmarshalTypeError e => lib.typeErrorText e

/-! ## The validator (go-playground/validator) -/

/-- Go `validator.FieldError`: the namespace and name of the field and the tag
that failed (`ActualTag` differs from `Tag` for an alias). -/
structure FieldError where
  Namespace : String
  Field : String
  Tag : String
  ActualTag : String
deriving DecidableEq, Repr

/-- `Error()` of a `validator.FieldError`, the validator's default message. -/
def FieldError.Error (fe : FieldError) : String :=
  "Key: \x27" ++ fe.Namespace ++ "\x27 Error:Field validation for \x27" ++ fe.Field
    ++ "\x27 failed on the \x27" ++ fe.Tag ++ "\x27 tag"

/-- The violation of check `tag` by field `f` of `Student`. -/
def violation (f : Field) (tag : String) : FieldError :=
  { Namespace := "Student." ++ f.goName, Field := f.goName, Tag := tag, ActualTag := tag }

/-- Modelled from the spec: the `validate` tags of `types.Student` and what
`validator.New().Struct(student)` reports for them.  `name`, `email` and `age`
are required (the zero value counts as missing), `email` must besides be an
email address (the validator's `email` check) and `age` greater than zero (its
`gt` check).  The fields are visited in declaration order and a field reports
its first failing check only.  The empty list is the nil error. -/
def validateStruct (lib : Lib) (student : Student) : List FieldError :=
  (if student.Name = "" then [violation .Name "required"] else [])
  ++ (if student.Email = "" then [violation .Email "required"]
      else if lib.isEmail student.Email then [] else [violation .Email "email"])
  ++ (if student.Age = 0 then [violation .Age "required"]
      else if student.Age > 0 then [] else [violation .Age "gt"])

/-! ## internal/utils/response (response.go) -/

/-- Go `response.CommonErrRes`. -/
structure CommonErrRes where
  Status : String
  Error : String
deriving DecidableEq, Repr

/-- The values the handlers pass to `WriteJson` as `data interface{}`. -/
inductive Data where
  | errRes (e : CommonErrRes)
  | idMap (id : Int)
  | student (s : Student)
  | students (xs : Slice Student)
deriving DecidableEq, Repr

/-- The JSON object a `Student` is encoded as. -/
def Student.toJson (s : Student) : JVal :=
  .obj [(Field.jsonName .Id, .int s.Id), (Field.jsonName .Name, .str s.Name),
    (Field.jsonName .Email, .str s.Email), (Field.jsonName .Age, .int s.Age)]

/-- The JSON object a `CommonErrRes` is encoded as, by its field tags. -/
def CommonErrRes.toJson (e : CommonErrRes) : JVal :=
  .obj [("status", .str e.Status), ("error", .str e.Error)]

/-- What `json.NewEncoder(w).Encode(data)` writes: a struct as an object, the
map `map[string]int64` with its one key, a nil slice as `null` and any other
slice as an array. -/
def Data.encode : Data → JVal
  | .errRes e => e.toJson
  | .idMap id => .obj [("id", .int id)]
  | .student s => s.toJson
  | .students .nil => .null
  | .students (.elems xs) => .arr (xs.map Student.toJson)

/-- Go `http.ResponseWriter` as the client sees it: the header map, the status
(none until the header is written) and the documents written to the body. -/
structure ResponseWriter where
  header : List (String × String)
  status : Option Nat
  body : List JVal

/-- The writer `net/http` hands to a handler. -/
def ResponseWriter.fresh : ResponseWriter :=
  { header := [], status := none, body := [] }

/-- Go `Header.Set`. -/
def ResponseWriter.Set (w : ResponseWriter) (key value : String) : ResponseWriter :=
  { w with header := (key, value) :: w.header.filter (fun kv => kv.1 != key) }

/-- Go `Header.Get`. -/
def ResponseWriter.Get (w : ResponseWriter) (key : String) : String :=
  match w.header.find? (fun kv => kv.1 == key) with
  | some kv => kv.2
  | none => ""

/-- Go `ResponseWriter.WriteHeader`: the first status written stands. -/
def ResponseWriter.WriteHeader (w : ResponseWriter) (status : Nat) : ResponseWriter :=
  match w.status with
  | none => { w with status := some status }
  | some _ => w

/-- Go `response.WriteJson`. -/
def WriteJson (w : ResponseWriter) (status : Nat) (data : Data) : ResponseWriter :=
  let w := w.Set "Content-Type" "application/json"
  let w := w.WriteHeader status
  { w with body := w.body ++ [data.encode] }

/-- Go `response.CommonError`. -/
def CommonError (err : GoError) : CommonErrRes :=
  { Status := "Error", Error := err.msg }

/-- Go `strings.Join`. -/
def stringsJoin (elems : List String) (sep : String) : String :=
  match elems with
  | [] => ""
  | e :: rest => rest.foldl (fun b s => b ++ sep ++ s) e

/-- Go `response.ValidationError`: the loop appends one message per violation,
then the messages are joined. -/
def ValidationError (errs : List FieldError) : CommonErrRes :=
  let errMsgs : List String :=
    errs.foldl
      (fun errMsgs err =>
        if err.ActualTag = "required" then errMsgs ++ [err.Field ++ " is required"]
        else errMsgs ++ [err.Error])
      []
  { Status := "Error", Error := stringsJoin errMsgs ", " }

/-! ## internal/storage: the Storage interface -/

/-- The interface `storage.Storage`, whose three methods the handlers call.
An implementation has a state `σ`; a method returns the state after the call
and both of its Go results (the error is `none` for nil). -/
structure Storage (σ : Type) where
  CreateStudent : σ → String → String → Int → σ × Int × Option GoError
  FetchStudentById : σ → Int → σ × Student × Option GoError
  FetchAllStudents : σ → σ × Slice Student × Option GoError

/-- A call on the storage interface, with its arguments. -/
inductive Call where
  | CreateStudent (name email : String) (age : Int)
  | FetchStudentById (id : Int)
  | FetchAllStudents
deriving DecidableEq, Repr

/-- A record written by `slog.Info`: the message and its integer attributes. -/
structure LogEntry where
  msg : String
  attrs : List (String × Int)
deriving DecidableEq, Repr

/-- What a handler acts on: the storage state, the trace of storage calls, the
log, and the response writer. -/
structure World (σ : Type) where
  store : σ
  calls : List Call
  logs : List LogEntry
  rw : ResponseWriter

/-- The world at the start of a request: storage in state `st`, nothing called
or logged, a fresh response writer. -/
def World.init {σ : Type} (st : σ) : World σ :=
  { store := st, calls := [], logs := [], rw := ResponseWriter.fresh }

/-- Go `slog.Info`. -/
def World.Info {σ : Type} (w : World σ) (msg : String) (attrs : List (String × Int)) :
    World σ :=
  { w with logs := w.logs ++ [⟨msg, attrs⟩] }

/-- The call `response.WriteJson(rw, status, data)`. -/
def World.WriteJson {σ : Type} (w : World σ) (status : Nat) (data : Data) : World σ :=
  { w with rw := GoCrud.WriteJson w.rw status data }

/-- The call `storage.CreateStudent(name, email, age)`. -/
def World.CreateStudent {σ : Type} (w : World σ) (storage : Storage σ) (name email : String)
    (age : Int) : World σ × Int × Option GoError :=
  let r := storage.CreateStudent w.store name email age
  ({ w with store := r.1, calls := w.calls ++ [.CreateStudent name email age] }, r.2.1, r.2.2)

/-- The call `storage.FetchStudentById(id)`. -/
def World.FetchStudentById {σ : Type} (w : World σ) (storage : Storage σ) (id : Int) :
    World σ × Student × Option GoError :=
  let r := storage.FetchStudentById w.store id
  ({ w with store := r.1, calls := w.calls ++ [.FetchStudentById id] }, r.2.1, r.2.2)

/-- The call `storage.FetchAllStudents()`. -/
def World.FetchAllStudents {σ : Type} (w : World σ) (storage : Storage σ) :
    World σ × Slice Student × Option GoError :=
  let r := storage.FetchAllStudents w.store
  ({ w with store := r.1, calls := w.calls ++ [.FetchAllStudents] }, r.2.1, r.2.2)

/-! ## internal/http/handlers/student (student.go) -/

/-- Go `*http.Request`, as far as the handlers read it: the body and the path
values set by the router. -/
structure Request where
  Body : String
  PathValue : String → String

/-- Go `http.StatusOK`. -/
def StatusOK : Nat := 200

/-- Go `http.StatusCreated`. -/
def StatusCreated : Nat := 201

/-- Go `http.StatusBadRequest`. -/
def StatusBadRequest : Nat := 400

/-- Go `http.StatusInternalServerError`. -/
def StatusInternalServerError : Nat := 500

/-- Go `student.New(storage)`, the handler of `POST /api/student`. -/
def New {σ : Type} (lib : Lib) (storage : Storage σ) (w : World σ) (r : Request) : World σ :=
  let w := w.Info "creating student" []
  let dec := Decode r.Body Student.zero
  let student := dec.1
  match dec.2 with
  | some .EOF =>
    w.WriteJson StatusBadRequest (.errRes (CommonError ⟨"body is empty"⟩))
  | some err =>
    w.WriteJson StatusBadRequest
      (.errRes (CommonError ⟨"unable to decode request body: " ++ err.Error lib⟩))
  | none =>
    match validateStruct lib student with
    | e :: es => w.WriteJson StatusBadRequest (.errRes (ValidationError (e :: es)))
    | [] =>
      let res := w.CreateStudent storage student.Name student.Email student.Age
      let w := res.1
      let lastId := res.2.1
      let w := w.Info "student created" [("id", lastId)]
      match res.2.2 with
      | some err => w.WriteJson StatusInternalServerError (.errRes (CommonError err))
      | none => w.WriteJson StatusCreated (.idMap lastId)

/-- Go `student.FetchById(storage)`, the handler of `GET /api/student/{id}`. -/
def FetchById {σ : Type} (lib : Lib) (storage : Storage σ) (w : World σ) (r : Request) :
    World σ :=
  let w := w.Info "fetching student by id" []
  let id := r.PathValue "id"
  match Atoi id with
  | .error err => w.WriteJson StatusBadRequest (.errRes (CommonError ⟨err.Error lib⟩))
  | .ok idInt =>
    let res := w.FetchStudentById storage idInt
    let w := res.1
    match res.2.2 with
    | some err => w.WriteJson StatusInternalServerError (.errRes (CommonError err))
    | none => w.WriteJson StatusOK (.student res.2.1)

/-- Go `student.FetchAll(storage)`, the handler of `GET /api/students`. -/
def FetchAll {σ : Type} (storage : Storage σ) (w : World σ) (_r : Request) : World σ :=
  let w := w.Info "fetching all students" []
  let res := w.FetchAllStudents storage
  let w := res.1
  match res.2.2 with
  | some err => w.WriteJson StatusInternalServerError (.errRes (CommonError err))
  | none => w.WriteJson StatusOK (.students res.2.1)

/-- The three routes registered in `main`. -/
inductive Route where
  | postStudent
  | getStudent
  | getStudents
deriving DecidableEq, Repr

/-- The handler `main` registers for a route. -/
def Route.handler {σ : Type} (lib : Lib) (storage : Storage σ) :
    Route → World σ → Request → World σ
  | .postStudent => New lib storage
  | .getStudent => FetchById lib storage
  | .getStudents => FetchAll storage

/-! ## Test doubles

Concrete libraries and storages, for evaluating the handlers on concrete
requests. -/

/-- A stand-in for the library texts: an email is any text holding an at-sign,
quoting adds the quotes and escapes nothing.  On the requests evaluated below
(the address `ann@x.com`, no quoted text) it agrees with the libraries. -/
def Lib.plain : Lib :=
  { isEmail := fun s => s.toList.contains '@'
    quote := fun s => String.singleton dquote ++ s ++ String.singleton dquote
    quoteChar := fun c => "\x27" ++ String.singleton c ++ "\x27"
    typeErrorText := fun e =>
      "json: cannot unmarshal " ++ e.Value ++ " into Go struct field " ++ e.Struct ++ "."
        ++ e.Field }

/-- Go `append(s, x)`: the result is never nil. -/
def Slice.append {α : Type} (s : Slice α) (x : α) : Slice α :=
  .elems (s.toList ++ [x])

/-- A storage that keeps the records in a list and numbers them from 1.
`FetchAllStudents` appends every record to a slice variable that starts nil,
the way a row loop does. -/
def memStorage : Storage (List Student) :=
  { CreateStudent := fun st name email age =>
      (st ++ [{ Id := st.length + 1, Name := name, Email := email, Age := age }],
        st.length + 1, none)
    FetchStudentById := fun st id =>
      match st.find? (fun s => s.Id == id) with
      | some s => (st, s, none)
      | none => (st, Student.zero, some ⟨"no student found"⟩)
    FetchAllStudents := fun st => (st, st.foldl Slice.append .nil, none) }

/-- A storage whose every operation fails. -/
def failingStorage : Storage Unit :=
  { CreateStudent := fun st _ _ _ => (st, 0, some ⟨"database is locked"⟩)
    FetchStudentById := fun st _ => (st, Student.zero, some ⟨"database is locked"⟩)
    FetchAllStudents := fun st => (st, .nil, some ⟨"database is locked"⟩) }

/-- The request `POST /api/student` with the given body. -/
def postRequest (body : String) : Request :=
  { Body := body, PathValue := fun _ => "" }

/-- The request `GET /api/student/{id}` with the given path segment. -/
def getRequest (id : String) : Request :=
  { Body := "", PathValue := fun name => if name = "id" then id else "" }

/-- The body of the spec's scenario: Ann, 30. -/
def annBody : String :=
  "\x7b\"name\":\"Ann\",\"email\":\"ann@x.com\",\"age\":30\x7d"

/-- Ann, as decoded from `annBody`. -/
def ann : Student :=
  { Id := 0, Name := "Ann", Email := "ann@x.com", Age := 30 }

/-- The body of the spec's scenario followed by bytes that are no JSON. -/
def annBodyTrailing : String :=
  "\x7b\"name\":\"Ann\",\"email\":\"ann@x.com\",\"age\":30\x7d this is not JSON"

/-! ## Statements -/

/-- The message `response.ValidationError` renders for one violation. -/
def violationMessage (err : FieldError) : String :=
  if err.ActualTag = "required" then err.Field ++ " is required" else err.Error

/-- The shapes of the calls of `WriteJson` the handlers make: a failure status
with an envelope of status "Error", or a success status with its payload. -/
def ResponseShape (code : Nat) (data : Data) : Prop :=
  ((code = 400 ∨ code = 500) ∧ ∃ m, data = .errRes { Status := "Error", Error := m })
  ∨ (code = 201 ∧ ∃ id, data = .idMap id)
  ∨ (code = 200 ∧ ((∃ s, data = .student s) ∨ ∃ xs, data = .students xs))

/-- The number a run of decimal digits denotes, `n` being the value of the
digits read before it. -/
def decimalValue (digits : List Char) (n : Nat) : Nat :=
  digits.foldl (fun a c => a * 10 + (c.toNat - 48)) n

/-- The claim's "valid integer", spelled out: the text is a non-empty run of
decimal digits with an optional sign before it, and the number `n` it denotes
lies in the range of `int`, from -2^63 to 2^63 - 1. -/
def IsValidInteger (s : String) (n : Int) : Prop :=
  ∃ digits : List Char, digits ≠ [] ∧ (∀ c ∈ digits, c.isDigit = true)
    ∧ (((s.toList = digits ∨ s.toList = '+' :: digits) ∧ n = (decimalValue digits 0 : Nat))
        ∨ (s.toList = '-' :: digits ∧ n = -((decimalValue digits 0 : Nat) : Int)))
    ∧ -(2 ^ 63 : Int) ≤ n ∧ n < 2 ^ 63

/-! ## The handlers, case by case -/

theorem decode_annBody : Decode annBody Student.zero = (ann, none) := by
  rfl

theorem validate_ann : validateStruct Lib.plain ann = [] := by
  rfl

/-- `New` when the decoder reports `io.EOF`. -/
theorem New_of_EOF {σ : Type} (lib : Lib) (storage : Storage σ) (w : World σ) (r : Request)
    (h : (Decode r.Body Student.zero).2 = some .EOF) :
    New lib storage w r
      = (w.Info "creating student" []).WriteJson StatusBadRequest
          (.errRes (CommonError ⟨"body is empty"⟩)) := by
  unfold New
  simp only [h]

/-- `New` when the decoder reports another error. -/
theorem New_of_decode_error {σ : Type} (lib : Lib) (storage : Storage σ) (w : World σ)
    (r : Request) (e : DecodeError) (h : (Decode r.Body Student.zero).2 = some e)
    (he : e ≠ .EOF) :
    New lib storage w r
      = (w.Info "creating student" []).WriteJson StatusBadRequest
          (.errRes (CommonError ⟨"unable to decode request body: " ++ e.Error lib⟩)) := by
  unfold New
  cases e <;> first | exact absurd rfl he | simp only [h]

/-- `New` when validation reports a violation. -/
theorem New_of_invalid {σ : Type} (lib : Lib) (storage : Storage σ) (w : World σ)
    (r : Request) (h : (Decode r.Body Student.zero).2 = none)
    (hv : validateStruct lib (Decode r.Body Student.zero).1 ≠ []) :
    New lib storage w r
      = (w.Info "creating student" []).WriteJson StatusBadRequest
          (.errRes (ValidationError (validateStruct lib (Decode r.Body Student.zero).1))) := by
  unfold New
  simp only [h]
  cases hl : validateStruct lib (Decode r.Body Student.zero).1 with
  | nil => exact absurd hl hv
  | cons e es => rfl

/-- `New` when the body decodes and the student is valid. -/
theorem New_of_valid {σ : Type} (lib : Lib) (storage : Storage σ) (w : World σ)
    (r : Request) (h : (Decode r.Body Student.zero).2 = none)
    (hv : validateStruct lib (Decode r.Body Student.zero).1 = []) :
    New lib storage w r
      = match ((w.Info "creating student" []).CreateStudent storage
            (Decode r.Body Student.zero).1.Name (Decode r.Body Student.zero).1.Email
            (Decode r.Body Student.zero).1.Age).2.2 with
        | some err =>
          ((((w.Info "creating student" []).CreateStudent storage
            (Decode r.Body Student.zero).1.Name (Decode r.Body Student.zero).1.Email
            (Decode r.Body Student.zero).1.Age).1).Info "student created"
              [("id", ((w.Info "creating student" []).CreateStudent storage
                (Decode r.Body Student.zero).1.Name (Decode r.Body Student.zero).1.Email
                (Decode r.Body Student.zero).1.Age).2.1)]).WriteJson
            StatusInternalServerError (.errRes (CommonError err))
        | none =>
          ((((w.Info "creating student" []).CreateStudent storage
            (Decode r.Body Student.zero).1.Name (Decode r.Body Student.zero).1.Email
            (Decode r.Body Student.zero).1.Age).1).Info "student created"
              [("id", ((w.Info "creating student" []).CreateStudent storage
                (Decode r.Body Student.zero).1.Name (Decode r.Body Student.zero).1.Email
                (Decode r.Body Student.zero).1.Age).2.1)]).WriteJson
            StatusCreated (.idMap ((w.Info "creating student" []).CreateStudent storage
                (Decode r.Body Student.zero).1.Name (Decode r.Body Student.zero).1.Email
                (Decode r.Body Student.zero).1.Age).2.1) := by
  unfold New
  simp only [h, hv]

/-- A request that does not decode leaves the storage alone. -/
theorem New_untouched_of_decode_error {σ : Type} (lib : Lib) (storage : Storage σ)
    (w : World σ) (r : Request) (h : (Decode r.Body Student.zero).2 ≠ none) :
    (New lib storage w r).calls = w.calls ∧ (New lib storage w r).store = w.store := by
  cases he : (Decode r.Body Student.zero).2 with
  | none => exact absurd he h
  | some e =>
    by_cases hE : e = .EOF
    · subst hE
      rw [New_of_EOF lib storage w r he]
      exact ⟨rfl, rfl⟩
    · rw [New_of_decode_error lib storage w r e he hE]
      exact ⟨rfl, rfl⟩

/-- A request whose student is not valid leaves the storage alone. -/
theorem New_untouched_of_invalid {σ : Type} (lib : Lib) (storage : Storage σ)
    (w : World σ) (r : Request)
    (hv : validateStruct lib (Decode r.Body Student.zero).1 ≠ []) :
    (New lib storage w r).calls = w.calls ∧ (New lib storage w r).store = w.store := by
  by_cases h : (Decode r.Body Student.zero).2 = none
  · rw [New_of_invalid lib storage w r h hv]
    exact ⟨rfl, rfl⟩
  · exact New_untouched_of_decode_error lib storage w r h

/-- A request with a valid student makes one call, `CreateStudent`. -/
theorem New_calls_of_valid {σ : Type} (lib : Lib) (storage : Storage σ) (w : World σ)
    (r : Request) (h : (Decode r.Body Student.zero).2 = none)
    (hv : validateStruct lib (Decode r.Body Student.zero).1 = []) :
    (New lib storage w r).calls
      = w.calls ++ [.CreateStudent (Decode r.Body Student.zero).1.Name
          (Decode r.Body Student.zero).1.Email (Decode r.Body Student.zero).1.Age] := by
  rw [New_of_valid lib storage w r h hv]
  split <;> rfl

/-- The accumulation loop of `String.intercalate` is the loop of `strings.Join`. -/
theorem intercalate_go_eq_foldl (sep : String) (rest : List String) (b : String) :
    String.intercalate.go b sep rest = rest.foldl (fun b s => b ++ sep ++ s) b := by
  induction rest generalizing b with
  | nil => rfl
  | cons a rest ih =>
    simp only [String.intercalate.go, List.foldl_cons]
    exact ih _

/-- Go `strings.Join` is `String.intercalate`. -/
theorem stringsJoin_eq_intercalate (elems : List String) (sep : String) :
    stringsJoin elems sep = sep.intercalate elems := by
  cases elems with
  | nil => rfl
  | cons e rest =>
    simp only [stringsJoin, String.intercalate]
    exact (intercalate_go_eq_foldl sep rest e).symm

/-- The loop of `ValidationError` appends the message of each violation, in
order. -/
theorem errMsgs_loop (errs : List FieldError) (init : List String) :
    errs.foldl
        (fun errMsgs err =>
          if err.ActualTag = "required" then errMsgs ++ [err.Field ++ " is required"]
          else errMsgs ++ [err.Error])
        init
      = init ++ errs.map violationMessage := by
  induction errs generalizing init with
  | nil => simp
  | cons e es ih =>
    simp only [List.foldl_cons, List.map_cons]
    rw [ih]
    by_cases h : e.ActualTag = "required"
    · simp [h, violationMessage]
    · simp [h, violationMessage]

/-- `ValidationError` in closed form. -/
theorem ValidationError_eq (errs : List FieldError) :
    ValidationError errs
      = { Status := "Error", Error := ", ".intercalate (errs.map violationMessage) } := by
  unfold ValidationError
  simp only [errMsgs_loop, List.nil_append, stringsJoin_eq_intercalate]

/-- A missing name is reported as a `required` violation of `Name`. -/
theorem validate_missing_name (lib : Lib) (student : Student) (h : student.Name = "") :
    violation .Name "required" ∈ validateStruct lib student := by
  unfold validateStruct
  simp [h]

/-- A missing email is reported as a `required` violation of `Email`. -/
theorem validate_missing_email (lib : Lib) (student : Student) (h : student.Email = "") :
    violation .Email "required" ∈ validateStruct lib student := by
  unfold validateStruct
  simp [h]

/-- A missing age is reported as a `required` violation of `Age`. -/
theorem validate_missing_age (lib : Lib) (student : Student) (h : student.Age = 0) :
    violation .Age "required" ∈ validateStruct lib student := by
  unfold validateStruct
  simp [h]

/-- `FetchById` when the path segment is not an integer. -/
theorem FetchById_of_atoi_error {σ : Type} (lib : Lib) (storage : Storage σ) (w : World σ)
    (r : Request) (e : NumError) (h : Atoi (r.PathValue "id") = .error e) :
    FetchById lib storage w r
      = (w.Info "fetching student by id" []).WriteJson StatusBadRequest
          (.errRes (CommonError ⟨e.Error lib⟩)) := by
  unfold FetchById
  simp only [h]

/-- `FetchById` when the path segment is the integer `n`. -/
theorem FetchById_of_atoi_ok {σ : Type} (lib : Lib) (storage : Storage σ) (w : World σ)
    (r : Request) (n : Int) (h : Atoi (r.PathValue "id") = .ok n) :
    FetchById lib storage w r
      = match ((w.Info "fetching student by id" []).FetchStudentById storage n).2.2 with
        | some err =>
          (((w.Info "fetching student by id" []).FetchStudentById storage n).1).WriteJson
            StatusInternalServerError (.errRes (CommonError err))
        | none =>
          (((w.Info "fetching student by id" []).FetchStudentById storage n).1).WriteJson
            StatusOK
            (.student ((w.Info "fetching student by id" []).FetchStudentById storage n).2.1) := by
  unfold FetchById
  simp only [h]

/-- `FetchAll`, by the result of the storage call. -/
theorem FetchAll_eq {σ : Type} (storage : Storage σ) (w : World σ) (r : Request) :
    FetchAll storage w r
      = match ((w.Info "fetching all students" []).FetchAllStudents storage).2.2 with
        | some err =>
          (((w.Info "fetching all students" []).FetchAllStudents storage).1).WriteJson
            StatusInternalServerError (.errRes (CommonError err))
        | none =>
          (((w.Info "fetching all students" []).FetchAllStudents storage).1).WriteJson
            StatusOK (.students ((w.Info "fetching all students" []).FetchAllStudents storage).2.1) :=
  rfl

/-- The response of `New` is one call of `WriteJson` on the fresh writer. -/
theorem New_response_shape {σ : Type} (lib : Lib) (storage : Storage σ) (st : σ)
    (r : Request) :
    ∃ code data, (New lib storage (World.init st) r).rw = WriteJson .fresh code data
      ∧ ResponseShape code data := by
  by_cases h : (Decode r.Body Student.zero).2 = none
  · by_cases hv : validateStruct lib (Decode r.Body Student.zero).1 = []
    · rw [New_of_valid lib storage _ r h hv]
      split
      · exact ⟨500, _, rfl, Or.inl ⟨Or.inr rfl, _, rfl⟩⟩
      · exact ⟨201, _, rfl, Or.inr (Or.inl ⟨rfl, _, rfl⟩)⟩
    · rw [New_of_invalid lib storage _ r h hv, ValidationError_eq]
      exact ⟨400, _, rfl, Or.inl ⟨Or.inl rfl, _, rfl⟩⟩
  · cases he : (Decode r.Body Student.zero).2 with
    | none => exact absurd he h
    | some e =>
      by_cases hE : e = .EOF
      · subst hE
        rw [New_of_EOF lib storage _ r he]
        exact ⟨400, _, rfl, Or.inl ⟨Or.inl rfl, _, rfl⟩⟩
      · rw [New_of_decode_error lib storage _ r e he hE]
        exact ⟨400, _, rfl, Or.inl ⟨Or.inl rfl, _, rfl⟩⟩

/-- The response of `FetchById` is one call of `WriteJson` on the fresh writer. -/
theorem FetchById_response_shape {σ : Type} (lib : Lib) (storage : Storage σ) (st : σ)
    (r : Request) :
    ∃ code data, (FetchById lib storage (World.init st) r).rw = WriteJson .fresh code data
      ∧ ResponseShape code data := by
  cases h : Atoi (r.PathValue "id") with
  | error e =>
    rw [FetchById_of_atoi_error lib storage _ r e h]
    exact ⟨400, _, rfl, Or.inl ⟨Or.inl rfl, _, rfl⟩⟩
  | ok n =>
    rw [FetchById_of_atoi_ok lib storage _ r n h]
    split
    · exact ⟨500, _, rfl, Or.inl ⟨Or.inr rfl, _, rfl⟩⟩
    · exact ⟨200, _, rfl, Or.inr (Or.inr ⟨rfl, Or.inl ⟨_, rfl⟩⟩)⟩

/-- The response of `FetchAll` is one call of `WriteJson` on the fresh writer. -/
theorem FetchAll_response_shape {σ : Type} (storage : Storage σ) (st : σ) (r : Request) :
    ∃ code data, (FetchAll storage (World.init st) r).rw = WriteJson .fresh code data
      ∧ ResponseShape code data := by
  rw [FetchAll_eq]
  split
  · exact ⟨500, _, rfl, Or.inl ⟨Or.inr rfl, _, rfl⟩⟩
  · exact ⟨200, _, rfl, Or.inr (Or.inr ⟨rfl, Or.inr ⟨_, rfl⟩⟩)⟩

/-- The scanning loop of `readValue` does not look past the byte that follows
the value: when the value ends before the end of the input, bytes appended to
the input change nothing. -/
theorem readValueLoop_append (buf buf' rest : List Char) (n : Nat) :
    ∀ (l : List Char) (s : Scanner) (k : Nat),
      readValueLoop buf s k l = .value n → n < k + l.length →
      readValueLoop buf' s k (l ++ rest) = .value n := by
  intro l
  induction l with
  | nil =>
    intro s k h hn
    exfalso
    rw [readValueLoop] at h
    split at h
    · injection h with h
      simp only [List.length_nil, Nat.add_zero] at hn
      omega
    · split at h <;> cases h
  | cons c cs ih =>
    intro s k h hn
    rw [List.cons_append, readValueLoop]
    rw [readValueLoop] at h
    generalize s.doStep c = p at h ⊢
    obtain ⟨s1, op⟩ := p
    have hk : n < k + 1 + cs.length := by
      simp only [List.length_cons] at hn
      omega
    cases op <;> simp only at h ⊢
    all_goals first
      | exact ih _ _ h hk
      | exact h
      | skip
    all_goals
      generalize stateEndValue s1 ' ' = q at h ⊢
      obtain ⟨s2, op2⟩ := q
      cases op2 <;> simp only at h ⊢
      all_goals first
        | exact ih _ _ h hk
        | exact h

/-- `Decode` does not look past the byte that follows the first value. -/
theorem Decode_append (body rest : String) (student : Student) (n : Nat)
    (h : readValue body.toList = .value n) (hn : n < body.length) :
    Decode (body ++ rest) student = Decode body student := by
  have hl : (body ++ rest).toList = body.toList ++ rest.toList := rfl
  have h1 : readValue (body.toList ++ rest.toList) = .value n := by
    unfold readValue
    exact readValueLoop_append body.toList _ rest.toList n body.toList Scanner.reset 0
      h (by simpa using hn)
  have h2 : (body.toList ++ rest.toList).take n = body.toList.take n := by
    apply List.take_append_of_le_length
    exact Nat.le_of_lt hn
  unfold Decode
  rw [hl, h1, h]
  simp only [h2]

/-! ## strconv.Atoi and the valid integers -/

/-- The value of a run of digits is at least the value it started from. -/
theorem decimalValue_ge (digits : List Char) (n : Nat) : n ≤ decimalValue digits n := by
  induction digits generalizing n with
  | nil => exact Nat.le_refl n
  | cons c cs ih =>
    have h := ih (n * 10 + (c.toNat - 48))
    simp only [decimalValue, List.foldl_cons] at h ⊢
    omega

/-- The digit loop of `ParseUint` succeeds exactly on runs of digits whose value
fits 64 bits, and returns that value. -/
theorem parseUintLoop_ok_iff (cs : List Char) (n v : Nat) (hn : n ≤ 2 ^ 64 - 1) :
    parseUintLoop cs n = .ok v
      ↔ (∀ c ∈ cs, c.isDigit = true) ∧ v = decimalValue cs n ∧ v ≤ 2 ^ 64 - 1 := by
  induction cs generalizing n with
  | nil =>
    simp only [parseUintLoop, decimalValue, List.foldl_nil, List.not_mem_nil, false_implies,
      implies_true, true_and, Except.ok.injEq]
    constructor
    · intro h; subst h; exact ⟨rfl, hn⟩
    · intro h; exact h.1.symm
  | cons c cs ih =>
    have hge := decimalValue_ge cs (n * 10 + (c.toNat - 48))
    have hcons : decimalValue (c :: cs) n = decimalValue cs (n * 10 + (c.toNat - 48)) := rfl
    rw [parseUintLoop, hcons]
    by_cases hd : c.isDigit = true
    · simp only [hd, if_true, List.mem_cons, forall_eq_or_imp, true_and]
      by_cases h1 : n ≥ (2 ^ 64 - 1) / 10 + 1
      · simp only [h1, if_true]
        constructor
        · intro h; cases h
        · intro h
          exfalso
          have := h.2.2
          have := h.2.1
          omega
      · simp only [h1, if_false]
        by_cases h2 : n * 10 + (c.toNat - 48) > 2 ^ 64 - 1
        · simp only [h2, if_true]
          constructor
          · intro h; cases h
          · intro h
            exfalso
            have := h.2.2
            have := h.2.1
            omega
        · simp only [h2, if_false]
          exact ih _ (by omega)
    · simp only [hd, List.mem_cons, forall_eq_or_imp]
      constructor
      · intro h; simp at h
      · intro h; exact absurd h.1.1 (by simp)


/-- `ParseUint` succeeds exactly on non-empty runs of digits whose value fits 64
bits. -/
theorem ParseUint_ok_iff (l : List Char) (v : Nat) :
    ParseUint l = .ok v
      ↔ l ≠ [] ∧ (∀ c ∈ l, c.isDigit = true) ∧ v = decimalValue l 0 ∧ v ≤ 2 ^ 64 - 1 := by
  cases l with
  | nil =>
    simp only [ParseUint, ne_eq, not_true_eq_false, false_and, iff_false]
    intro h
    cases h
  | cons c cs =>
    simp only [ParseUint, ne_eq, reduceCtorEq, not_false_eq_true, true_and]
    exact parseUintLoop_ok_iff (c :: cs) 0 v (by omega)

/-- The minus sign is no digit. -/
theorem not_isDigit_minus : ('-' : Char).isDigit = false := by decide

/-- The plus sign is no digit. -/
theorem not_isDigit_plus : ('+' : Char).isDigit = false := by decide

/-- The range check of `ParseInt` for an unsigned or plus-signed input. -/
theorem ParseInt_range_pos (u : Except NumErr Nat) (n : Int) :
    (match u with
      | .error .ErrSyntax => (.error .ErrSyntax : Except NumErr Int)
      | .error .ErrRange => .error .ErrRange
      | .ok un => if un ≥ 2 ^ 63 then .error .ErrRange else .ok (un : Int)) = .ok n
      ↔ ∃ un, u = .ok un ∧ un < 2 ^ 63 ∧ n = (un : Int) := by
  cases u with
  | error e =>
    cases e
    · constructor
      · intro h; cases h
      · rintro ⟨un, h, -⟩; cases h
    · constructor
      · intro h; cases h
      · rintro ⟨un, h, -⟩; cases h
  | ok un =>
    simp only
    by_cases hge : un ≥ 2 ^ 63
    · rw [if_pos hge]
      constructor
      · intro h; cases h
      · rintro ⟨un1, h, hlt, -⟩
        injection h with h
        omega
    · rw [if_neg hge]
      constructor
      · intro h
        injection h with h
        exact ⟨un, rfl, by omega, h.symm⟩
      · rintro ⟨un1, h, -, hn⟩
        injection h with h
        rw [hn, h]

/-- The range check of `ParseInt` for a minus-signed input. -/
theorem ParseInt_range_neg (u : Except NumErr Nat) (n : Int) :
    (match u with
      | .error .ErrSyntax => (.error .ErrSyntax : Except NumErr Int)
      | .error .ErrRange => .error .ErrRange
      | .ok un => if un > 2 ^ 63 then .error .ErrRange else .ok (-(un : Int))) = .ok n
      ↔ ∃ un, u = .ok un ∧ un ≤ 2 ^ 63 ∧ n = -(un : Int) := by
  cases u with
  | error e =>
    cases e
    · constructor
      · intro h; cases h
      · rintro ⟨un, h, -⟩; cases h
    · constructor
      · intro h; cases h
      · rintro ⟨un, h, -⟩; cases h
  | ok un =>
    simp only
    by_cases hgt : un > 2 ^ 63
    · rw [if_pos hgt]
      constructor
      · intro h; cases h
      · rintro ⟨un1, h, hle, -⟩
        injection h with h
        omega
    · rw [if_neg hgt]
      constructor
      · intro h
        injection h with h
        exact ⟨un, rfl, by omega, h.symm⟩
      · rintro ⟨un1, h, -, hn⟩
        injection h with h
        rw [hn, h]

/-- `ParseInt` on a minus sign followed by `cs`. -/
theorem ParseInt_minus (cs : List Char) :
    ParseInt ('-' :: cs)
      = match ParseUint cs with
        | .error .ErrSyntax => .error .ErrSyntax
        | .error .ErrRange => .error .ErrRange
        | .ok un => if un > 2 ^ 63 then .error .ErrRange else .ok (-(un : Int)) := by
  have hsel : (if ('-' == '+' || '-' == '-') = true then cs else '-' :: cs) = cs := rfl
  simp only [ParseInt, hsel]
  generalize ParseUint cs = u
  cases u with
  | error e => cases e <;> rfl
  | ok un => simp [IntSize]

/-- `ParseInt` on a plus sign followed by `cs`. -/
theorem ParseInt_plus (cs : List Char) :
    ParseInt ('+' :: cs)
      = match ParseUint cs with
        | .error .ErrSyntax => .error .ErrSyntax
        | .error .ErrRange => .error .ErrRange
        | .ok un => if un ≥ 2 ^ 63 then .error .ErrRange else .ok (un : Int) := by
  have hsel : (if ('+' == '+' || '+' == '-') = true then cs else '+' :: cs) = cs := rfl
  simp only [ParseInt, hsel]
  generalize ParseUint cs = u
  cases u with
  | error e => cases e <;> rfl
  | ok un => simp [IntSize]

/-- `ParseInt` on an input that does not start with a sign. -/
theorem ParseInt_unsigned (c : Char) (cs : List Char) (hp : c ≠ '+') (hm : c ≠ '-') :
    ParseInt (c :: cs)
      = match ParseUint (c :: cs) with
        | .error .ErrSyntax => .error .ErrSyntax
        | .error .ErrRange => .error .ErrRange
        | .ok un => if un ≥ 2 ^ 63 then .error .ErrRange else .ok (un : Int) := by
  have hsel : (if (c == '+' || c == '-') = true then cs else c :: cs) = c :: cs := by
    simp [hp, hm]
  simp only [ParseInt, hsel]
  generalize ParseUint (c :: cs) = u
  cases u with
  | error e => cases e <;> rfl
  | ok un => simp [IntSize, hm]

/-- `ParseInt` accepts exactly the decimal numerals of the int range: an
optional sign and a non-empty run of digits whose value, with the sign, lies
between -2^63 and 2^63 - 1. -/
theorem ParseInt_ok_iff (l : List Char) (n : Int) :
    ParseInt l = .ok n
      ↔ ∃ digits : List Char, digits ≠ [] ∧ (∀ c ∈ digits, c.isDigit = true)
          ∧ (((l = digits ∨ l = '+' :: digits) ∧ n = (decimalValue digits 0 : Nat))
              ∨ (l = '-' :: digits ∧ n = -((decimalValue digits 0 : Nat) : Int)))
          ∧ -(2 ^ 63 : Int) ≤ n ∧ n < 2 ^ 63 := by
  cases l with
  | nil =>
    constructor
    · intro h
      cases h
    · rintro ⟨digits, hne, -, h, -⟩
      rcases h with ⟨h | h, -⟩ | ⟨h, -⟩
      · exact absurd h.symm hne
      · cases h
      · cases h
  | cons c cs =>
    by_cases hm : c = '-'
    · subst hm
      rw [ParseInt_minus, ParseInt_range_neg]
      constructor
      · rintro ⟨un, hu, hle, hn⟩
        obtain ⟨hne, hdig, hv, -⟩ := (ParseUint_ok_iff cs un).mp hu
        refine ⟨cs, hne, hdig, Or.inr ⟨rfl, by rw [← hv]; exact hn⟩, ?_, ?_⟩
        · omega
        · omega
      · rintro ⟨digits, hne, hdig, h, hlo, hhi⟩
        rcases h with ⟨h | h, -⟩ | ⟨h, hn⟩
        · exfalso
          have := hdig '-' (by rw [← h]; exact List.mem_cons_self _ _)
          rw [not_isDigit_minus] at this
          cases this
        · cases h
        · injection h with _ h
          subst h
          exact ⟨decimalValue cs 0,
            (ParseUint_ok_iff cs _).mpr ⟨hne, hdig, rfl, by omega⟩, by omega, hn⟩
    · by_cases hp : c = '+'
      · subst hp
        rw [ParseInt_plus, ParseInt_range_pos]
        constructor
        · rintro ⟨un, hu, hlt, hn⟩
          obtain ⟨hne, hdig, hv, -⟩ := (ParseUint_ok_iff cs un).mp hu
          refine ⟨cs, hne, hdig, Or.inl ⟨Or.inr rfl, by rw [← hv]; exact hn⟩, ?_, ?_⟩
          · omega
          · omega
        · rintro ⟨digits, hne, hdig, h, hlo, hhi⟩
          rcases h with ⟨h | h, hn⟩ | ⟨h, -⟩
          · exfalso
            have := hdig '+' (by rw [← h]; exact List.mem_cons_self _ _)
            rw [not_isDigit_plus] at this
            cases this
          · injection h with _ h
            subst h
            exact ⟨decimalValue cs 0,
              (ParseUint_ok_iff cs _).mpr ⟨hne, hdig, rfl, by omega⟩, by omega, hn⟩
          · cases h
      · rw [ParseInt_unsigned c cs hp hm, ParseInt_range_pos]
        constructor
        · rintro ⟨un, hu, hlt, hn⟩
          obtain ⟨hne, hdig, hv, -⟩ := (ParseUint_ok_iff (c :: cs) un).mp hu
          refine ⟨c :: cs, hne, hdig, Or.inl ⟨Or.inl rfl, by rw [← hv]; exact hn⟩, ?_, ?_⟩
          · omega
          · omega
        · rintro ⟨digits, hne, hdig, h, hlo, hhi⟩
          rcases h with ⟨h | h, hn⟩ | ⟨h, -⟩
          · subst h
            exact ⟨decimalValue (c :: cs) 0,
              (ParseUint_ok_iff (c :: cs) _).mpr ⟨hne, hdig, rfl, by omega⟩, by omega, hn⟩
          · injection h with h _
            exact absurd h hp
          · injection h with h _
            exact absurd h hm

/-- `Atoi` accepts exactly the valid integers, and returns the integer denoted. -/
theorem Atoi_ok_iff (s : String) (n : Int) : Atoi s = .ok n ↔ IsValidInteger s n := by
  unfold IsValidInteger
  rw [← ParseInt_ok_iff]
  unfold Atoi
  cases ParseInt s.toList with
  | error e =>
    constructor
    · intro h; cases h
    · intro h; cases h
  | ok m =>
    constructor
    · intro h
      injection h with h
      rw [h]
    · intro h
      injection h with h
      rw [h]

/-! ## The claims -/

/-- C1: `student.New` calls `storage.CreateStudent` only when the body decoded
without error and validation of the decoded student reported no violation, and
then with the fields of that student; on an empty body, on a decode error and
on a validation failure the storage is not called at all and its state is the
one before the request. -/
theorem New_calls_storage_only_with_valid_student {σ : Type} (lib : Lib)
    (storage : Storage σ) (st : σ) (r : Request) :
    (∀ c ∈ (New lib storage (World.init st) r).calls,
        (Decode r.Body Student.zero).2 = none
        ∧ validateStruct lib (Decode r.Body Student.zero).1 = []
        ∧ c = .CreateStudent (Decode r.Body Student.zero).1.Name
            (Decode r.Body Student.zero).1.Email (Decode r.Body Student.zero).1.Age)
    ∧ (r.Body = "" →
        (New lib storage (World.init st) r).calls = []
        ∧ (New lib storage (World.init st) r).store = st)
    ∧ ((Decode r.Body Student.zero).2 ≠ none →
        (New lib storage (World.init st) r).calls = []
        ∧ (New lib storage (World.init st) r).store = st)
    ∧ (validateStruct lib (Decode r.Body Student.zero).1 ≠ [] →
        (New lib storage (World.init st) r).calls = []
        ∧ (New lib storage (World.init st) r).store = st)
    ∧ ((Decode r.Body Student.zero).2 = none →
        validateStruct lib (Decode r.Body Student.zero).1 = [] →
        (New lib storage (World.init st) r).calls
          = [.CreateStudent (Decode r.Body Student.zero).1.Name
              (Decode r.Body Student.zero).1.Email (Decode r.Body Student.zero).1.Age]) := by
  refine ⟨?_, ?_, ?_, ?_, ?_⟩
  · intro c hc
    by_cases h : (Decode r.Body Student.zero).2 = none
    · by_cases hv : validateStruct lib (Decode r.Body Student.zero).1 = []
      · rw [New_calls_of_valid lib storage _ r h hv] at hc
        simp only [World.init, List.nil_append, List.mem_singleton] at hc
        exact ⟨h, hv, hc⟩
      · rw [(New_untouched_of_invalid lib storage _ r hv).1] at hc
        exact absurd hc (List.not_mem_nil c)
    · rw [(New_untouched_of_decode_error lib storage _ r h).1] at hc
      exact absurd hc (List.not_mem_nil c)
  · intro hb
    have h : (Decode r.Body Student.zero).2 ≠ none := by
      rw [hb]
      exact Option.some_ne_none DecodeError.EOF
    exact New_untouched_of_decode_error lib storage _ r h
  · intro h
    exact New_untouched_of_decode_error lib storage _ r h
  · intro hv
    exact New_untouched_of_invalid lib storage _ r hv
  · intro h hv
    rw [New_calls_of_valid lib storage _ r h hv]
    rfl

/-- The theorem of C1 at two requests on the in-memory storage: the spec's
scenario makes the one call `CreateStudent("Ann", "ann@x.com", 30)`, and a
request without a name makes no call. -/
theorem New_calls_storage_only_with_valid_student_witness :
    (New Lib.plain memStorage (World.init []) (postRequest annBody)).calls
        = [.CreateStudent "Ann" "ann@x.com" 30]
    ∧ (New Lib.plain memStorage (World.init [])
        (postRequest "\x7b\"email\":\"ann@x.com\",\"age\":30\x7d")).calls = [] :=
  ⟨(New_calls_storage_only_with_valid_student Lib.plain memStorage []
      (postRequest annBody)).2.2.2.2 rfl rfl,
    ((New_calls_storage_only_with_valid_student Lib.plain memStorage []
      (postRequest "\x7b\"email\":\"ann@x.com\",\"age\":30\x7d")).2.2.2.1
        (by decide)).1⟩

/-- C2: when the body decodes and the student is valid, `student.New` answers
from the result of `storage.CreateStudent(name, email, age)`: an error gives
status 500 and the envelope with exactly the error's message, no error gives
status 201 and the body `{"id": id}` with the id storage returned. -/
theorem New_maps_CreateStudent_result {σ : Type} (lib : Lib) (storage : Storage σ)
    (st : σ) (r : Request) (student : Student)
    (hdec : Decode r.Body Student.zero = (student, none))
    (hval : validateStruct lib student = []) :
    (∀ err, (storage.CreateStudent st student.Name student.Email student.Age).2.2 = some err →
        (New lib storage (World.init st) r).rw.status = some 500
        ∧ (New lib storage (World.init st) r).rw.body
            = [.obj [("status", .str "Error"), ("error", .str err.msg)]])
    ∧ ((storage.CreateStudent st student.Name student.Email student.Age).2.2 = none →
        (New lib storage (World.init st) r).rw.status = some 201
        ∧ (New lib storage (World.init st) r).rw.body
            = [.obj [("id",
                .int (storage.CreateStudent st student.Name student.Email student.Age).2.1)]]) := by
  have h : (Decode r.Body Student.zero).2 = none := by rw [hdec]
  have hv : validateStruct lib (Decode r.Body Student.zero).1 = [] := by rw [hdec]; exact hval
  rw [New_of_valid lib storage _ r h hv, hdec]
  constructor
  · intro err he
    simp only [World.CreateStudent, World.Info, World.init, he]
    exact ⟨rfl, rfl⟩
  · intro he
    simp only [World.CreateStudent, World.Info, World.init, he]
    exact ⟨rfl, rfl⟩

/-- The theorem of C2 at the spec's scenario: Ann is stored under id 1 and the
response is 201 with `{"id": 1}`. -/
theorem New_maps_CreateStudent_result_witness :
    Decode (postRequest annBody).Body Student.zero = (ann, none)
    ∧ validateStruct Lib.plain ann = []
    ∧ (memStorage.CreateStudent [] ann.Name ann.Email ann.Age).2.2 = none
    ∧ (New Lib.plain memStorage (World.init []) (postRequest annBody)).rw.status = some 201
    ∧ (New Lib.plain memStorage (World.init []) (postRequest annBody)).rw.body
        = [.obj [("id", .int 1)]] :=
  ⟨decode_annBody, validate_ann, rfl,
    ((New_maps_CreateStudent_result Lib.plain memStorage [] (postRequest annBody) ann
      decode_annBody validate_ann).2 rfl).1,
    ((New_maps_CreateStudent_result Lib.plain memStorage [] (postRequest annBody) ann
      decode_annBody validate_ann).2 rfl).2⟩

/-- C4: on an empty body `student.New` answers 400 with the envelope whose
message is "body is empty", and performs no storage operation. -/
theorem New_empty_body {σ : Type} (lib : Lib) (storage : Storage σ) (st : σ)
    (pathValue : String → String) :
    (New lib storage (World.init st) { Body := "", PathValue := pathValue }).rw.status
        = some 400
    ∧ (New lib storage (World.init st) { Body := "", PathValue := pathValue }).rw.body
        = [.obj [("status", .str "Error"), ("error", .str "body is empty")]]
    ∧ (New lib storage (World.init st) { Body := "", PathValue := pathValue }).calls = []
    ∧ (New lib storage (World.init st) { Body := "", PathValue := pathValue }).store = st :=
  ⟨rfl, rfl, rfl, rfl⟩

/-- C3: a request to `student.New` whose decoded student lacks the name, the
email or the age is answered 400 with the envelope whose message is the
comma-joined list of messages, holding "<Field> is required" for each missing
field, and when all three are missing the message is exactly "Name is
required, Email is required, Age is required".  In general
`response.ValidationError` returns status "Error" and the messages of the
violations joined by ", " in input order, "<Field> is required" for a violation
with tag `required` and the validator's default message for any other. -/
theorem ValidationError_joins_messages :
    (∀ (σ : Type) (lib : Lib) (storage : Storage σ) (st : σ) (r : Request) (student : Student),
      Decode r.Body Student.zero = (student, none) →
      (student.Name = "" ∨ student.Email = "" ∨ student.Age = 0) →
      (New lib storage (World.init st) r).rw.status = some 400
      ∧ (∃ msgs : List String,
          (New lib storage (World.init st) r).rw.body
            = [.obj [("status", .str "Error"), ("error", .str (", ".intercalate msgs))]]
          ∧ (student.Name = "" → "Name is required" ∈ msgs)
          ∧ (student.Email = "" → "Email is required" ∈ msgs)
          ∧ (student.Age = 0 → "Age is required" ∈ msgs))
      ∧ (student.Name = "" → student.Email = "" → student.Age = 0 →
          (New lib storage (World.init st) r).rw.body
            = [.obj [("status", .str "Error"),
                ("error", .str "Name is required, Email is required, Age is required")]]))
    ∧ (∀ errs : List FieldError,
        ValidationError errs
          = { Status := "Error"
              Error := ", ".intercalate
                (errs.map (fun err =>
                  if err.ActualTag = "required" then err.Field ++ " is required"
                  else err.Error)) }) := by
  constructor
  · intro σ lib storage st r student hdec hmiss
    have h : (Decode r.Body Student.zero).2 = none := by rw [hdec]
    have hv : validateStruct lib (Decode r.Body Student.zero).1 ≠ [] := by
      rw [hdec]
      intro hnil
      rcases hmiss with hn | he | ha
      · have := validate_missing_name lib student hn
        rw [hnil] at this
        exact absurd this (List.not_mem_nil _)
      · have := validate_missing_email lib student he
        rw [hnil] at this
        exact absurd this (List.not_mem_nil _)
      · have := validate_missing_age lib student ha
        rw [hnil] at this
        exact absurd this (List.not_mem_nil _)
    rw [New_of_invalid lib storage _ r h hv, hdec, ValidationError_eq]
    refine ⟨rfl, ⟨(validateStruct lib student).map violationMessage, rfl, ?_, ?_, ?_⟩, ?_⟩
    · intro hn
      exact List.mem_map.mpr ⟨_, validate_missing_name lib student hn, by decide⟩
    · intro he
      exact List.mem_map.mpr ⟨_, validate_missing_email lib student he, by decide⟩
    · intro ha
      exact List.mem_map.mpr ⟨_, validate_missing_age lib student ha, by decide⟩
    · intro hn he ha
      have hall : validateStruct lib student
          = [violation .Name "required", violation .Email "required",
              violation .Age "required"] := by
        unfold validateStruct
        simp [hn, he, ha]
      rw [hall]
      rfl
  · intro errs
    exact ValidationError_eq errs

/-- The theorem of C3 at the request whose body is the empty object: all three
fields are missing and the message names them in declaration order. -/
theorem ValidationError_joins_messages_witness :
    Decode (postRequest "\x7b\x7d").Body Student.zero = (Student.zero, none)
    ∧ (New Lib.plain memStorage (World.init []) (postRequest "\x7b\x7d")).rw.status = some 400
    ∧ (New Lib.plain memStorage (World.init []) (postRequest "\x7b\x7d")).rw.body
        = [.obj [("status", .str "Error"),
            ("error", .str "Name is required, Email is required, Age is required")]] :=
  ⟨rfl,
    (ValidationError_joins_messages.1 _ Lib.plain memStorage [] (postRequest "\x7b\x7d")
      Student.zero rfl (Or.inl rfl)).1,
    (ValidationError_joins_messages.1 _ Lib.plain memStorage [] (postRequest "\x7b\x7d")
      Student.zero rfl (Or.inl rfl)).2.2 rfl rfl rfl⟩

/-- C6: when the `{id}` path segment is not a valid integer (a non-empty run
of decimal digits, optionally signed, within the range of int), `FetchById`
answers 400 with the envelope carrying the message of the `strconv.Atoi` error
and does not call the storage; when the segment is a valid integer denoting
`n`, `FetchStudentById` is called exactly once, with `n`, and nothing else is
called.  "abc", the empty string and 9223372036854775808 (one above the largest
int) are not valid integers. -/
theorem FetchById_path_id {σ : Type} (lib : Lib) (storage : Storage σ) (st : σ)
    (r : Request) :
    ((¬ ∃ n, IsValidInteger (r.PathValue "id") n) →
        (FetchById lib storage (World.init st) r).rw.status = some 400
        ∧ (∃ e, Atoi (r.PathValue "id") = .error e
            ∧ (FetchById lib storage (World.init st) r).rw.body
              = [.obj [("status", .str "Error"), ("error", .str (e.Error lib))]])
        ∧ (FetchById lib storage (World.init st) r).calls = []
        ∧ (FetchById lib storage (World.init st) r).store = st)
    ∧ (∀ n, IsValidInteger (r.PathValue "id") n →
        (FetchById lib storage (World.init st) r).calls = [.FetchStudentById n])
    ∧ (¬ ∃ n, IsValidInteger "abc" n)
    ∧ (¬ ∃ n, IsValidInteger "" n)
    ∧ (¬ ∃ n, IsValidInteger "9223372036854775808" n)
    ∧ IsValidInteger "9223372036854775807" 9223372036854775807 := by
  refine ⟨?_, ?_, ?_, ?_, ?_, ?_⟩
  · intro hnot
    cases he : Atoi (r.PathValue "id") with
    | ok n => exact absurd ⟨n, (Atoi_ok_iff _ n).mp he⟩ hnot
    | error e =>
      rw [FetchById_of_atoi_error lib storage _ r e he]
      exact ⟨rfl, ⟨e, rfl, rfl⟩, rfl, rfl⟩
  · intro n hn
    rw [FetchById_of_atoi_ok lib storage _ r n ((Atoi_ok_iff _ n).mpr hn)]
    split <;> rfl
  · rintro ⟨n, hn⟩
    have h := (Atoi_ok_iff _ n).mpr hn
    have h1 : Atoi "abc" = .error ⟨"Atoi", "abc", .ErrSyntax⟩ := rfl
    rw [h1] at h
    cases h
  · rintro ⟨n, hn⟩
    have h := (Atoi_ok_iff _ n).mpr hn
    have h1 : Atoi "" = .error ⟨"Atoi", "", .ErrSyntax⟩ := rfl
    rw [h1] at h
    cases h
  · rintro ⟨n, hn⟩
    have h := (Atoi_ok_iff _ n).mpr hn
    have h1 : Atoi "9223372036854775808"
        = .error ⟨"Atoi", "9223372036854775808", .ErrRange⟩ := rfl
    rw [h1] at h
    cases h
  · exact (Atoi_ok_iff _ _).mp rfl

/-- The theorem of C6 at two requests: the segment "abc" is answered 400 without
a storage call, the segment "42" leads to the one call `FetchStudentById(42)`. -/
theorem FetchById_path_id_witness :
    (FetchById Lib.plain memStorage (World.init []) (getRequest "abc")).rw.status = some 400
    ∧ (FetchById Lib.plain memStorage (World.init []) (getRequest "abc")).calls = []
    ∧ (FetchById Lib.plain memStorage (World.init []) (getRequest "42")).calls
        = [.FetchStudentById 42] :=
  ⟨((FetchById_path_id Lib.plain memStorage [] (getRequest "abc")).1
      (FetchById_path_id Lib.plain memStorage [] (getRequest "abc")).2.2.1).1,
    ((FetchById_path_id Lib.plain memStorage [] (getRequest "abc")).1
      (FetchById_path_id Lib.plain memStorage [] (getRequest "abc")).2.2.1).2.2.1,
    (FetchById_path_id Lib.plain memStorage [] (getRequest "42")).2.1 42
      ((Atoi_ok_iff "42" 42).mp rfl)⟩

/-- C7: for a path segment that is the integer `n`, `FetchById` answers from
the result of `storage.FetchStudentById(n)`: any error gives status 500 and the
envelope with exactly the error's message, no error gives status 200 and the
record storage returned, with its id, name, email and age. -/
theorem FetchById_maps_storage_result {σ : Type} (lib : Lib) (storage : Storage σ)
    (st : σ) (r : Request) (n : Int) (hid : Atoi (r.PathValue "id") = .ok n) :
    (∀ err, (storage.FetchStudentById st n).2.2 = some err →
        (FetchById lib storage (World.init st) r).rw.status = some 500
        ∧ (FetchById lib storage (World.init st) r).rw.body
            = [.obj [("status", .str "Error"), ("error", .str err.msg)]])
    ∧ ((storage.FetchStudentById st n).2.2 = none →
        (FetchById lib storage (World.init st) r).rw.status = some 200
        ∧ (FetchById lib storage (World.init st) r).rw.body
            = [.obj [("id", .int (storage.FetchStudentById st n).2.1.Id),
                ("name", .str (storage.FetchStudentById st n).2.1.Name),
                ("email", .str (storage.FetchStudentById st n).2.1.Email),
                ("age", .int (storage.FetchStudentById st n).2.1.Age)]]) := by
  rw [FetchById_of_atoi_ok lib storage _ r n hid]
  constructor
  · intro err he
    simp only [World.FetchStudentById, World.Info, World.init, he]
    exact ⟨rfl, rfl⟩
  · intro he
    simp only [World.FetchStudentById, World.Info, World.init, he]
    exact ⟨rfl, rfl⟩

/-- The theorem of C7 at two requests: `GET /api/student/1` on a storage that
holds Ann under id 1 is answered 200 with her record, and on a storage that
fails it is answered 500 with the storage's message. -/
theorem FetchById_maps_storage_result_witness :
    Atoi ((getRequest "1").PathValue "id") = .ok 1
    ∧ (FetchById Lib.plain memStorage (World.init [{ ann with Id := 1 }])
          (getRequest "1")).rw.status = some 200
    ∧ (FetchById Lib.plain memStorage (World.init [{ ann with Id := 1 }])
          (getRequest "1")).rw.body
        = [.obj [("id", .int 1), ("name", .str "Ann"), ("email", .str "ann@x.com"),
            ("age", .int 30)]]
    ∧ (FetchById Lib.plain failingStorage (World.init ()) (getRequest "1")).rw.status
        = some 500
    ∧ (FetchById Lib.plain failingStorage (World.init ()) (getRequest "1")).rw.body
        = [.obj [("status", .str "Error"), ("error", .str "database is locked")]] :=
  ⟨rfl,
    ((FetchById_maps_storage_result Lib.plain memStorage [{ ann with Id := 1 }]
      (getRequest "1") 1 rfl).2 rfl).1,
    ((FetchById_maps_storage_result Lib.plain memStorage [{ ann with Id := 1 }]
      (getRequest "1") 1 rfl).2 rfl).2,
    ((FetchById_maps_storage_result Lib.plain failingStorage () (getRequest "1") 1 rfl).1
      ⟨"database is locked"⟩ rfl).1,
    ((FetchById_maps_storage_result Lib.plain failingStorage () (getRequest "1") 1 rfl).1
      ⟨"database is locked"⟩ rfl).2⟩

/-- C8, as the code has it: `FetchAll` answers from the result of
`storage.FetchAllStudents()`.  An error gives status 500 and the envelope with
the error's message.  Without error the status is 200 and the body is the
encoding of the slice storage returned: for a slice that is not nil a JSON
array of exactly its records, in the same order and number (the empty array
for an empty slice), and for the nil slice `null`. -/
theorem FetchAll_maps_storage_result {σ : Type} (storage : Storage σ) (st : σ)
    (r : Request) :
    (∀ err, (storage.FetchAllStudents st).2.2 = some err →
        (FetchAll storage (World.init st) r).rw.status = some 500
        ∧ (FetchAll storage (World.init st) r).rw.body
            = [.obj [("status", .str "Error"), ("error", .str err.msg)]])
    ∧ (∀ xs, (storage.FetchAllStudents st).2 = (.elems xs, none) →
        (FetchAll storage (World.init st) r).rw.status = some 200
        ∧ (∃ items : List JVal,
            (FetchAll storage (World.init st) r).rw.body = [.arr items]
            ∧ items.length = xs.length
            ∧ items = xs.map (fun s =>
                .obj [("id", .int s.Id), ("name", .str s.Name), ("email", .str s.Email),
                  ("age", .int s.Age)])))
    ∧ ((storage.FetchAllStudents st).2 = (.nil, none) →
        (FetchAll storage (World.init st) r).rw.status = some 200
        ∧ (FetchAll storage (World.init st) r).rw.body = [.null]) := by
  rw [FetchAll_eq]
  refine ⟨?_, ?_, ?_⟩
  · intro err he
    simp only [World.FetchAllStudents, World.Info, World.init, he]
    exact ⟨rfl, rfl⟩
  · intro xs he
    simp only [World.FetchAllStudents, World.Info, World.init, he]
    exact ⟨rfl, _, rfl, by simp, rfl⟩
  · intro he
    simp only [World.FetchAllStudents, World.Info, World.init, he]
    exact ⟨rfl, rfl⟩

/-- The theorem of C8 at the in-memory store holding Ann under id 1: the body
is the array of her one record. -/
theorem FetchAll_maps_storage_result_witness :
    (FetchAll memStorage (World.init [{ ann with Id := 1 }]) (postRequest "")).rw.status
        = some 200
    ∧ (FetchAll memStorage (World.init [{ ann with Id := 1 }]) (postRequest "")).rw.body
        = [.arr [.obj [("id", .int 1), ("name", .str "Ann"), ("email", .str "ann@x.com"),
            ("age", .int 30)]]] :=
  ⟨((FetchAll_maps_storage_result memStorage [{ ann with Id := 1 }] (postRequest "")).2.1
      [{ ann with Id := 1 }] rfl).1,
    by
      obtain ⟨items, hbody, -, hitems⟩ :=
        ((FetchAll_maps_storage_result memStorage [{ ann with Id := 1 }]
          (postRequest "")).2.1 [{ ann with Id := 1 }] rfl).2
      rw [hbody, hitems]
      rfl⟩

/-- C8 as stated fails: on the empty in-memory store, whose `FetchAllStudents`
returns the nil slice without error, `FetchAll` answers 200 with the body
`null`, not with the empty array. -/
theorem FetchAll_empty_store_is_null :
    (memStorage.FetchAllStudents []).2 = (.nil, none)
    ∧ (FetchAll memStorage (World.init []) (postRequest "")).rw.status = some 200
    ∧ (FetchAll memStorage (World.init []) (postRequest "")).rw.body = [.null]
    ∧ (FetchAll memStorage (World.init []) (postRequest "")).rw.body ≠ [.arr []] := by
  refine ⟨rfl, rfl, rfl, ?_⟩
  intro h
  have h1 : (FetchAll memStorage (World.init []) (postRequest "")).rw.body = [.null] := rfl
  rw [h1] at h
  simp at h

/-- C9: for each of the three handlers the response has one of the statuses
200, 201, 400, 500 and Content-Type `application/json`; with status 400 or 500
the body is exactly the envelope `{"status": "Error", "error": m}`; with status
200 or 201 the body is the success payload (the created id, a student record,
or the encoded slice of records) and is not an envelope. -/
theorem responses_are_envelope_iff_failure {σ : Type} (lib : Lib) (storage : Storage σ)
    (st : σ) (r : Request) (route : Route) :
    ((route.handler lib storage (World.init st) r).rw.status = some 200
      ∨ (route.handler lib storage (World.init st) r).rw.status = some 201
      ∨ (route.handler lib storage (World.init st) r).rw.status = some 400
      ∨ (route.handler lib storage (World.init st) r).rw.status = some 500)
    ∧ (route.handler lib storage (World.init st) r).rw.Get "Content-Type"
        = "application/json"
    ∧ ((route.handler lib storage (World.init st) r).rw.status = some 400
        ∨ (route.handler lib storage (World.init st) r).rw.status = some 500 →
        ∃ m, (route.handler lib storage (World.init st) r).rw.body
          = [.obj [("status", .str "Error"), ("error", .str m)]])
    ∧ ((route.handler lib storage (World.init st) r).rw.status = some 200
        ∨ (route.handler lib storage (World.init st) r).rw.status = some 201 →
        ((∃ id, (route.handler lib storage (World.init st) r).rw.body
            = [.obj [("id", .int id)]])
          ∨ (∃ s : Student, (route.handler lib storage (World.init st) r).rw.body
            = [.obj [("id", .int s.Id), ("name", .str s.Name), ("email", .str s.Email),
                ("age", .int s.Age)]])
          ∨ (∃ xs : Slice Student, (route.handler lib storage (World.init st) r).rw.body
            = [Data.encode (.students xs)]))
        ∧ ∀ m, (route.handler lib storage (World.init st) r).rw.body
            ≠ [.obj [("status", .str "Error"), ("error", .str m)]]) := by
  have hshape : ∃ code data,
      (route.handler lib storage (World.init st) r).rw = WriteJson .fresh code data
        ∧ ResponseShape code data := by
    cases route with
    | postStudent => exact New_response_shape lib storage st r
    | getStudent => exact FetchById_response_shape lib storage st r
    | getStudents => exact FetchAll_response_shape storage st r
  obtain ⟨code, data, hrw, hsh⟩ := hshape
  rw [hrw]
  rcases hsh with ⟨hc, m, hd⟩ | ⟨hc, id, hd⟩ | ⟨hc, hd⟩
  · subst hd
    rcases hc with hc | hc <;> subst hc
    · refine ⟨Or.inr (Or.inr (Or.inl rfl)), rfl, fun _ => ⟨m, rfl⟩, ?_⟩
      intro h
      rcases h with h | h <;> simp [WriteJson, ResponseWriter.WriteHeader, ResponseWriter.Set,
        ResponseWriter.fresh] at h
    · refine ⟨Or.inr (Or.inr (Or.inr rfl)), rfl, fun _ => ⟨m, rfl⟩, ?_⟩
      intro h
      rcases h with h | h <;> simp [WriteJson, ResponseWriter.WriteHeader, ResponseWriter.Set,
        ResponseWriter.fresh] at h
  · subst hd
    subst hc
    refine ⟨Or.inr (Or.inl rfl), rfl, ?_, fun _ => ⟨Or.inl ⟨id, rfl⟩, ?_⟩⟩
    · intro h
      rcases h with h | h <;> simp [WriteJson, ResponseWriter.WriteHeader, ResponseWriter.Set,
        ResponseWriter.fresh] at h
    · intro m h
      simp [WriteJson, ResponseWriter.WriteHeader, ResponseWriter.Set, ResponseWriter.fresh,
        Data.encode] at h
  · subst hc
    refine ⟨Or.inl rfl, rfl, ?_, fun _ => ⟨?_, ?_⟩⟩
    · intro h
      rcases h with h | h <;> simp [WriteJson, ResponseWriter.WriteHeader, ResponseWriter.Set,
        ResponseWriter.fresh] at h
    · rcases hd with ⟨s, hd⟩ | ⟨xs, hd⟩
      · subst hd
        exact Or.inr (Or.inl ⟨s, rfl⟩)
      · subst hd
        exact Or.inr (Or.inr ⟨xs, rfl⟩)
    · intro m h
      rcases hd with ⟨s, hd⟩ | ⟨xs, hd⟩
      · subst hd
        simp [WriteJson, ResponseWriter.WriteHeader, ResponseWriter.Set, ResponseWriter.fresh,
          Data.encode, Student.toJson] at h
      · subst hd
        cases xs with
        | nil =>
          simp [WriteJson, ResponseWriter.WriteHeader, ResponseWriter.Set,
            ResponseWriter.fresh, Data.encode] at h
        | elems l =>
          simp [WriteJson, ResponseWriter.WriteHeader, ResponseWriter.Set,
            ResponseWriter.fresh, Data.encode] at h

/-- C10, the code at a failing input: Ann's request on a storage whose
`CreateStudent` fails.  The storage is called, it returns an error, the
response is 500, and the log holds the entry "student created" with id 0. -/
theorem New_logs_created_on_storage_error :
    (New Lib.plain failingStorage (World.init ()) (postRequest annBody)).calls
        = [.CreateStudent "Ann" "ann@x.com" 30]
    ∧ (failingStorage.CreateStudent () "Ann" "ann@x.com" 30).2.2
        = some ⟨"database is locked"⟩
    ∧ (New Lib.plain failingStorage (World.init ()) (postRequest annBody)).rw.status
        = some 500
    ∧ (New Lib.plain failingStorage (World.init ()) (postRequest annBody)).logs
        = [⟨"creating student", []⟩, ⟨"student created", [("id", 0)]⟩] :=
  ⟨rfl, rfl, rfl, rfl⟩

/-- C5, as the code has it: `student.New` decodes the first JSON value of the
body.  Whenever that decoding reports an error (an empty body, a value cut
short, a syntax error, a value that is neither an object nor `null`, a field of
the wrong JSON type) the response is 400 with an error envelope, the storage is
not called and its state is unchanged.  The decoder does not look past the byte
that follows the first value: when the value ends before the end of the body,
appending bytes to the body does not change the handler's result.  A string
for `age` is a type error, a body cut short is an unexpected EOF, and a body
that is no JSON is a syntax error. -/
theorem New_rejects_undecodable_first_value {σ : Type} (lib : Lib) (storage : Storage σ)
    (st : σ) (r : Request) :
    (∀ e, (Decode r.Body Student.zero).2 = some e →
        (New lib storage (World.init st) r).rw.status = some 400
        ∧ (∃ m, (New lib storage (World.init st) r).rw.body
            = [.obj [("status", .str "Error"), ("error", .str m)]])
        ∧ (New lib storage (World.init st) r).calls = []
        ∧ (New lib storage (World.init st) r).store = st)
    ∧ (∀ n rest, readValue r.Body.toList = .value n → n < r.Body.length →
        New lib storage (World.init st) { r with Body := r.Body ++ rest }
          = New lib storage (World.init st) r)
    ∧ (Decode "\x7b\"age\":\"30\"\x7d" Student.zero).2
        = some (.unmarshalTypeError ⟨"string", "Student", "age"⟩)
    ∧ (Decode "\x7b\"name\":" Student.zero).2 = some .ErrUnexpectedEOF
    ∧ (Decode "name=Ann" Student.zero).2
        = some (.syntaxError ⟨'a', "in literal null (expecting \x27u\x27)"⟩) := by
  refine ⟨?_, ?_, rfl, rfl, rfl⟩
  · intro e he
    have hne : (Decode r.Body Student.zero).2 ≠ none := by
      rw [he]
      exact Option.some_ne_none e
    refine ⟨?_, ?_, (New_untouched_of_decode_error lib storage _ r hne).1,
      (New_untouched_of_decode_error lib storage _ r hne).2⟩
    · by_cases hE : e = .EOF
      · subst hE
        rw [New_of_EOF lib storage _ r he]
        rfl
      · rw [New_of_decode_error lib storage _ r e he hE]
        rfl
    · by_cases hE : e = .EOF
      · subst hE
        rw [New_of_EOF lib storage _ r he]
        exact ⟨_, rfl⟩
      · rw [New_of_decode_error lib storage _ r e he hE]
        exact ⟨_, rfl⟩
  · intro n rest h hn
    unfold New
    simp only [Decode_append r.Body rest Student.zero n h hn]

/-- C5 as stated fails: a valid JSON object followed by bytes that are no JSON
is not answered 400.  The object is decoded, the bytes after it are not read,
`CreateStudent` is called and the response is 201. -/
theorem New_accepts_object_followed_by_bytes :
    (New Lib.plain memStorage (World.init []) (postRequest annBodyTrailing)).rw.status
        = some 201
    ∧ (New Lib.plain memStorage (World.init []) (postRequest annBodyTrailing)).rw.body
        = [.obj [("id", .int 1)]]
    ∧ (New Lib.plain memStorage (World.init []) (postRequest annBodyTrailing)).calls
        = [.CreateStudent "Ann" "ann@x.com" 30] :=
  ⟨rfl, rfl, rfl⟩

/-- The theorem of C5 at a request whose `age` is a string: a type error, the
response 400, no storage call. -/
theorem New_rejects_undecodable_first_value_witness :
    (Decode (postRequest "\x7b\"age\":\"30\"\x7d").Body Student.zero).2
        = some (.unmarshalTypeError ⟨"string", "Student", "age"⟩)
    ∧ (New Lib.plain memStorage (World.init [])
        (postRequest "\x7b\"age\":\"30\"\x7d")).rw.status = some 400
    ∧ (New Lib.plain memStorage (World.init [])
        (postRequest "\x7b\"age\":\"30\"\x7d")).calls = [] :=
  ⟨rfl,
    ((New_rejects_undecodable_first_value Lib.plain memStorage []
      (postRequest "\x7b\"age\":\"30\"\x7d")).1 _ rfl).1,
    ((New_rejects_undecodable_first_value Lib.plain memStorage []
      (postRequest "\x7b\"age\":\"30\"\x7d")).1 _ rfl).2.2.1⟩

end GoCrud
